import Mathlib

/-!
Verification of the vol_cl_tools claims: a shallow embedding of the
vol2vol converter (src/tools/vol2vol/main.c) and of the cutvols legacy
cutter (src/tools/cutvols/vols_cutter.cpp).

Files are modelled as lists of byte values (`List Nat`, each entry the
value of one byte).  Multi-byte integers are little-endian, as written by
`fwrite` of `uint32_t` / `uint16_t` on the target platforms.  Sub-arrays
of a frame are carried as byte lists; the on-disk size fields of a frame
equal the lengths of those lists (the `vol_geom` reader guarantees this
for every frame it yields).  The external texture encoder and the FFmpeg
remuxer are out-of-scope collaborators and enter as function parameters.
-/

namespace VolTools

/-- Little-endian 4-byte encoding of a natural number, as the tools write
a `uint32_t` with `fwrite`. -/
def u32B (n : Nat) : List Nat :=
  [n % 256, n / 256 % 256, n / 65536 % 256, n / 16777216 % 256]

/-- Little-endian 2-byte encoding of a `uint16_t`. -/
def u16B (n : Nat) : List Nat :=
  [n % 256, n / 256 % 256]

/-- Byte written for a boolean header flag. -/
def boolByte (b : Bool) : Nat := if b then 1 else 0

/-- `2 ^ 32`, the modulus of `uint32_t` arithmetic. -/
def pow32 : Nat := 4294967296

/-- The bytes of the IFF magic `"VOLS"`. -/
def volsMagic : List Nat := [86, 79, 76, 83]

/-- One frame of the container as the `vol_geom` reader exposes it:
the stored per-frame header fields (`frame_number`, `mesh_data_sz`,
`keyframe`) plus the sub-array byte runs of the frame body. -/
structure FrameData where
  number : Nat
  meshSz : Nat
  flag : Nat
  vertices : List Nat
  normals : List Nat
  indices : List Nat
  uvs : List Nat
  texture : List Nat
  deriving DecidableEq, Inhabited, Repr

/-- The materialized container header (`vol_geom_file_hdr_t`): the superset
of the fields of all supported versions.  Float-valued fields (`fps`,
`translation`, `rotation`, `scale`) are carried as their raw bytes, since
the converter only copies them. -/
structure VolHdr where
  formatSz : Nat
  formatBytes : List Nat
  version : Nat
  compression : Nat
  meshName : List Nat
  material : List Nat
  shader : List Nat
  topology : Nat
  frameCount : Nat
  normals : Bool
  textured : Bool
  textureCompression : Nat
  textureContainerFormat : Nat
  textureWidth : Nat
  textureHeight : Nat
  textureFormat : Nat
  fpsBytes : List Nat
  audio : Nat
  audioStart : Nat
  frameBodyStart : Nat
  translationBytes : List Nat
  rotationBytes : List Nat
  scaleBytes : List Nat
  deriving DecidableEq, Inhabited, Repr

/-- A parsed container: header, frames, and the optional audio blob
(`audio_data_ptr` / `audio_data_sz` of `vol_geom_info_t`). -/
structure Vologram where
  hdr : VolHdr
  frames : List FrameData
  audioData : Option (List Nat)
  deriving DecidableEq, Inhabited, Repr

/-- The vol2vol command-line knobs.  `texW = 0` / `texH = 0` means no
resize, `none` for a frame bound means the bound was not given, exactly
as the `-1` sentinels of the C globals. -/
structure ConvertOpts where
  noNormals : Bool
  texW : Nat
  texH : Nat
  startFrame : Option Nat
  endFrame : Option Nat
  deriving DecidableEq, Inhabited, Repr

/-- A conversion with no modifications. -/
def defaultOpts : ConvertOpts :=
  { noNormals := false, texW := 0, texH := 0, startFrame := none, endFrame := none }

/-- `_calculate_mesh_data_size` of src/tools/vol2vol/main.c (lines 178-217):
sub-array byte counts, plus one 4-byte size field per emitted sub-array for
version 12 and later, accumulated in `uint32_t`. -/
def calculateMeshDataSize (noNormals : Bool) (hdr : VolHdr) (fd : FrameData)
    (isKeyframe : Bool) (ptexSz : Nat) : Nat :=
  (fd.vertices.length
    + (if noNormals = false ∧ 11 ≤ hdr.version ∧ hdr.normals = true then fd.normals.length else 0)
    + (if isKeyframe = true then fd.indices.length + fd.uvs.length else 0)
    + (if 11 ≤ hdr.version ∧ hdr.textured = true ∧ 0 < fd.texture.length then ptexSz else 0)
    + (if 12 ≤ hdr.version then
        4 + (if noNormals = false ∧ hdr.normals = true then 4 else 0)
          + (if isKeyframe = true then 8 else 0)
          + (if hdr.textured = true ∧ 0 < fd.texture.length then 4 else 0)
      else 0)) % pow32

/-- Labels for the pieces a frame-body writer emits. -/
inductive Tag where
  | vertsSz | verts | normsSz | norms | indsSz | inds | uvsSz | uvs | texSz | tex | trailSz
  deriving DecidableEq, Inhabited, Repr

/-- The texture size that `_write_frame_body` feeds into the trailing
`_calculate_mesh_data_size` call (lines 885-890): the cached processed
texture size when a processed cache exists, otherwise the frame's own
texture size when a texture would be written. -/
def texSizeForTrailing (hdr : VolHdr) (fd : FrameData) (cache : Option (List Nat)) : Nat :=
  match cache with
  | some cb => cb.length
  | none =>
    if 11 ≤ hdr.version ∧ hdr.textured = true ∧ 0 < fd.texture.length then fd.texture.length else 0

/-- `_write_frame_body` of src/tools/vol2vol/main.c (lines 825-896) as a list
of labelled byte runs: vertices, then normals (unless stripped), then
indices and uvs for keyframes, then the processed texture, each preceded by
its 4-byte size, and finally the repeated trailing `mesh_data_sz`.
`cache` is the processed-texture cache (`none` when `texture_cache.processed`
is false, in which case the writer emits no texture bytes at all). -/
def writeFrameBodySegs (noNormals : Bool) (hdr : VolHdr) (fd : FrameData)
    (isKeyframe : Bool) (cache : Option (List Nat)) : List (Tag × List Nat) :=
  [(Tag.vertsSz, u32B fd.vertices.length), (Tag.verts, fd.vertices)]
  ++ (if noNormals = false ∧ 11 ≤ hdr.version ∧ hdr.normals = true then
        [(Tag.normsSz, u32B fd.normals.length), (Tag.norms, fd.normals)] else [])
  ++ (if isKeyframe = true then
        [(Tag.indsSz, u32B fd.indices.length), (Tag.inds, fd.indices),
         (Tag.uvsSz, u32B fd.uvs.length), (Tag.uvs, fd.uvs)] else [])
  ++ (if 11 ≤ hdr.version ∧ hdr.textured = true ∧ 0 < fd.texture.length then
        match cache with
        | some cb => [(Tag.texSz, u32B cb.length), (Tag.tex, cb)]
        | none => []
      else [])
  ++ [(Tag.trailSz,
       u32B (calculateMeshDataSize noNormals hdr fd isKeyframe (texSizeForTrailing hdr fd cache)))]

/-- Flatten labelled byte runs to the bytes actually written. -/
def segsBytes (l : List (Tag × List Nat)) : List Nat := (l.map Prod.snd).flatten

/-- `_write_frame_header` of src/tools/vol2vol/main.c (lines 810-820). -/
def writeFrameHeaderBytes (number meshSz flag : Nat) : List Nat :=
  u32B number ++ u32B meshSz ++ [flag % 256]

/-- Labels for the header fields the header writer emits. -/
inductive HTag where
  | fmt | version | compression | meshName | material | shader | topology | frameCount
  | normalsFlag | texturedFlag | texComp | texContainer | texW | texH | fpsF | audioFlag
  | audioStart | frameBodyStart | texW16 | texH16 | texFmt16 | translation | rotation | scale
  deriving DecidableEq, Inhabited, Repr

/-- A Unity-style length-prefixed string as the header writer emits it. -/
def lpString (s : List Nat) : List Nat := [s.length % 256] ++ s

/-- `_write_vols_header` of src/tools/vol2vol/main.c (lines 728-805) as
labelled byte runs.  The normals flag is forced to 0 when `--no-normals`
is active (line 773); the `"VOLS"` format tag is written as a bare 4-byte
IFF magic whenever the stored tag is the 4-character string `VOLS`. -/
def writeVolsHeaderSegs (noNormals : Bool) (hdr : VolHdr) : List (HTag × List Nat) :=
  [(HTag.fmt, if hdr.formatSz = 4 ∧ hdr.formatBytes = volsMagic then volsMagic
              else [hdr.formatSz % 256] ++ hdr.formatBytes)]
  ++ [(HTag.version, u32B hdr.version), (HTag.compression, u32B hdr.compression)]
  ++ (if hdr.version < 13 then
        [(HTag.meshName, lpString hdr.meshName), (HTag.material, lpString hdr.material),
         (HTag.shader, lpString hdr.shader), (HTag.topology, u32B hdr.topology)] else [])
  ++ [(HTag.frameCount, u32B hdr.frameCount)]
  ++ (if 11 ≤ hdr.version then
        [(HTag.normalsFlag, [if noNormals = true then 0 else boolByte hdr.normals]),
         (HTag.texturedFlag, [boolByte hdr.textured])] else [])
  ++ (if 13 ≤ hdr.version then
        [(HTag.texComp, [hdr.textureCompression % 256]),
         (HTag.texContainer, [hdr.textureContainerFormat % 256]),
         (HTag.texW, u32B hdr.textureWidth), (HTag.texH, u32B hdr.textureHeight),
         (HTag.fpsF, hdr.fpsBytes), (HTag.audioFlag, u32B hdr.audio),
         (HTag.audioStart, u32B hdr.audioStart), (HTag.frameBodyStart, u32B hdr.frameBodyStart)]
      else if 11 ≤ hdr.version then
        [(HTag.texW16, u16B hdr.textureWidth), (HTag.texH16, u16B hdr.textureHeight),
         (HTag.texFmt16, u16B hdr.textureFormat)] else [])
  ++ (if 12 ≤ hdr.version ∧ hdr.version < 13 then
        [(HTag.translation, hdr.translationBytes), (HTag.rotation, hdr.rotationBytes),
         (HTag.scale, hdr.scaleBytes)] else [])

/-- Flatten labelled header runs to bytes. -/
def hsegsBytes (l : List (HTag × List Nat)) : List Nat := (l.map Prod.snd).flatten

/-- The external BASIS transcode-and-re-encode step (vol_basis plus the
basis encoder wrapper): payload and target dimensions in, new payload out,
`none` on transcode or encode failure. -/
def TexEncoder := List Nat → Nat → Nat → Option (List Nat)

/-- Result of `_process_texture_data`. -/
structure TexOut where
  warned : Bool
  bytes : List Nat
  width : Nat
  height : Nat
  deriving DecidableEq, Inhabited, Repr

/-- The resize test of `_process_texture_data` (lines 334-336). -/
def needsResize (texW texH : Nat) (hdr : VolHdr) : Bool :=
  (decide (0 < texW) && decide (0 < texH))
    && (decide (texW ≠ hdr.textureWidth) || decide (texH ≠ hdr.textureHeight))

/-- `_process_texture_data` of src/tools/vol2vol/main.c (lines 319-415):
pass the payload through when no resize is needed; decode and re-encode
through the external encoder for v13 BASIS-container textures; otherwise
warn and pass the payload through unchanged (leaving the reported output
dimensions at the header's dimensions). -/
def processTextureData (enc : TexEncoder) (texW texH : Nat) (hdr : VolHdr)
    (tex : List Nat) : Option TexOut :=
  if needsResize texW texH hdr = false then
    some { warned := false, bytes := tex, width := hdr.textureWidth, height := hdr.textureHeight }
  else if 13 ≤ hdr.version ∧ hdr.textureContainerFormat = 1 then
    (enc tex texW texH).map fun b => { warned := false, bytes := b, width := texW, height := texH }
  else
    some { warned := true, bytes := tex, width := hdr.textureWidth, height := hdr.textureHeight }

/-- The packet-copy loop of `_process_audio_data` (lines 675-696): walk the
demuxed audio packets in stream order; copy a packet whose timestamp lies in
the window, stop at the first packet past the window, skip packets without a
timestamp.  A packet is its (optional) pts plus its payload bytes. -/
def collectWindowPackets (startTs endTs : Int) : List (Option Int × List Nat) → List Nat
  | [] => []
  | (none, _) :: rest => collectWindowPackets startTs endTs rest
  | (some pts, bytes) :: rest =>
    if startTs ≤ pts ∧ pts ≤ endTs then bytes ++ collectWindowPackets startTs endTs rest
    else if endTs < pts then []
    else collectWindowPackets startTs endTs rest

/-- `_process_audio_data` of src/tools/vol2vol/main.c (lines 516-722), with
FFmpeg demux, remux and timestamp rescaling abstracted: the function fails
(returns `none`, "ERROR: No output audio data generated") exactly when the
copied output is empty (lines 702-713). -/
def processAudioDataPackets (pkts : List (Option Int × List Nat)) (startTs endTs : Int) :
    Option (List Nat) :=
  let out := collectWindowPackets startTs endTs pkts
  if 0 < out.length then some out else none

/-- The audio trimmer as the pipeline sees it: resolved start frame, end
frame, original audio bytes in; trimmed bytes out, or `none` on failure. -/
def AudioTrimmer := Nat → Nat → List Nat → Option (List Nat)

/-- The frame-range clamping of `_process_vologram` (lines 948-975),
assuming a container with at least one frame: apply defaults, clamp both
bounds to the last frame, then pull the start down to the end. -/
def resolvedRange (opts : ConvertOpts) (total : Nat) : Nat × Nat :=
  let s0 := opts.startFrame.getD 0
  let e0 := opts.endFrame.getD (total - 1)
  let s1 := if total ≤ s0 then total - 1 else s0
  let e1 := if total ≤ e0 then total - 1 else e0
  let s2 := if e1 < s1 then e1 else s1
  (s2, e1)

/-- The trim-activation test of lines 977 and 1010: a range trim is active
when the range does not cover the whole container. -/
def trimActive (start endF total : Nat) : Bool :=
  decide (0 < start) || decide (endF < total - 1)

/-- The audio selection of `_process_vologram` (lines 1003-1027): when the
container has audio, either trim it (falling back to the original audio
with a warning when the trimmer fails) or pass it through; the result is
what gets written after the header. -/
def selectedAudio (trim : AudioTrimmer) (opts : ConvertOpts) (c : Vologram) :
    Option (List Nat) :=
  let total := c.hdr.frameCount
  let r := resolvedRange opts total
  if c.hdr.audio ≠ 0 ∧ c.audioData.isSome = true then
    let orig := c.audioData.getD []
    if trimActive r.1 r.2 total = true then
      match trim r.1 r.2 orig with
      | some a => some a
      | none => some orig
    else some orig
  else none

/-- The texture-dimension mutation of `_process_vologram` (lines 1036-1047):
target dimensions are applied whenever a resize was requested on a textured
container, regardless of the texture codec. -/
def texMutated (opts : ConvertOpts) (m1 : VolHdr) : VolHdr :=
  if 0 < opts.texW ∧ 0 < opts.texH ∧ m1.textured = true then
    { m1 with textureWidth := opts.texW, textureHeight := opts.texH } else m1

/-- The header mutation of `_process_vologram` (lines 1030-1067): new frame
count; texture dimensions via `texMutated`; recomputed audio offsets for
v13 with audio, with the serialized v13 header size hard-coded as 44
bytes. -/
def mutatedHdr (opts : ConvertOpts) (c : Vologram) (audioSel : Option (List Nat))
    (exportCnt : Nat) : VolHdr :=
  let m2 := texMutated opts { c.hdr with frameCount := exportCnt }
  if 13 ≤ m2.version ∧ c.hdr.audio ≠ 0 ∧ c.audioData.isSome = true then
    { m2 with frameBodyStart := 44 + 4 + (audioSel.getD []).length, audioStart := 44 }
  else m2

/-- The per-frame texture-cache step of the frame loop (lines 1126-1151):
process the texture once per frame when the container is textured and the
frame carries texture bytes; `some none` means no cache (the frame has no
texture to process), `none` means the texture pipeline failed and the whole
conversion aborts. -/
def texCacheFor (enc : TexEncoder) (opts : ConvertOpts) (hdr : VolHdr) (fd : FrameData) :
    Option (Option (List Nat)) :=
  if 11 ≤ hdr.version ∧ hdr.textured = true ∧ 0 < fd.texture.length then
    (processTextureData enc opts.texW opts.texH hdr fd.texture).map fun t => some t.bytes
  else some none

/-- Modelled from the spec: `previous_keyframe_index` (§4.2), the
`vol_geom_find_previous_keyframe` helper whose source is not under src/.
Scans backwards from `k` to 0 over the recorded keyframe flags and returns
the largest index at or below `k` whose flag is nonzero. -/
def findKeyframeDown (frames : List FrameData) : Nat → Option Nat
  | 0 => if (frames.getD 0 default).flag ≠ 0 then some 0 else none
  | k + 1 =>
    if (frames.getD (k + 1) default).flag ≠ 0 then some (k + 1) else findKeyframeDown frames k

/-- The keyframe splice of `_process_vologram` (lines 1167-1243): the new
block keeps the frame's own vertices, normals and texture and takes indices
and uvs from the previous keyframe. -/
def splicedFrameData (fd kfd : FrameData) : FrameData :=
  { fd with indices := kfd.indices, uvs := kfd.uvs }

/-- One output frame as emitted by the frame loop: the written frame-header
fields and the labelled body runs. -/
structure EmittedFrame where
  number : Nat
  flag : Nat
  meshSz : Nat
  segs : List (Tag × List Nat)
  deriving DecidableEq, Inhabited, Repr

/-- The output keyframe flag of lines 1252-1256: force 1 on a first frame
that was not a keyframe, force 2 on a last frame that was not a keyframe,
otherwise keep the stored flag. -/
def outFlag (j exportCnt flag : Nat) : Nat :=
  if j = 0 ∧ flag = 0 then 1
  else if j = exportCnt - 1 ∧ flag = 0 then 2
  else flag

/-- One iteration of the frame loop of `_process_vologram` (lines
1112-1290) for output index `j`: read input frame `start + j`, build the
texture cache, reconstitute a non-keyframe first or last frame from its
previous keyframe, then emit the renumbered frame header with the
recomputed `mesh_data_sz` and the frame body. -/
def emitOne (enc : TexEncoder) (opts : ConvertOpts) (c : Vologram)
    (start exportCnt j : Nat) : Option EmittedFrame :=
  let i := start + j
  let fd := c.frames.getD i default
  match texCacheFor enc opts c.hdr fd with
  | none => none
  | some cache =>
    match (if (j = 0 ∨ j = exportCnt - 1) ∧ fd.flag = 0 then
             match findKeyframeDown c.frames i with
             | none => none
             | some k => some (splicedFrameData fd (c.frames.getD k default), true)
           else some (fd, decide (fd.flag ≠ 0))) with
    | none => none
    | some fi =>
      some { number := j,
             flag := outFlag j exportCnt fd.flag,
             meshSz := calculateMeshDataSize opts.noNormals c.hdr fi.1 fi.2 (cache.getD []).length,
             segs := writeFrameBodySegs opts.noNormals c.hdr fi.1 fi.2 cache }

/-- Emit `n` consecutive output frames starting at output index `j`. -/
def emitList (enc : TexEncoder) (opts : ConvertOpts) (c : Vologram) (start exportCnt : Nat) :
    Nat → Nat → Option (List EmittedFrame)
  | _, 0 => some []
  | j, n + 1 =>
    match emitOne enc opts c start exportCnt j with
    | none => none
    | some f =>
      match emitList enc opts c start exportCnt (j + 1) n with
      | none => none
      | some fs => some (f :: fs)

/-- All frames the conversion emits. -/
def emitAll (enc : TexEncoder) (opts : ConvertOpts) (c : Vologram) :
    Option (List EmittedFrame) :=
  let total := c.hdr.frameCount
  let r := resolvedRange opts total
  let exportCnt := r.2 - r.1 + 1
  emitList enc opts c r.1 exportCnt 0 exportCnt

/-- Bytes of one emitted frame: frame header, body runs (the trailing
repeated `mesh_data_sz` is the last body run). -/
def emittedFrameBytes (f : EmittedFrame) : List Nat :=
  writeFrameHeaderBytes f.number f.meshSz f.flag ++ segsBytes f.segs

/-- Bytes of all emitted frames. -/
def framesBytes (fs : List EmittedFrame) : List Nat :=
  (fs.map emittedFrameBytes).flatten

/-- The audio section written right after the header (lines 1080-1104):
4-byte size then the audio bytes, or nothing when the container has no
audio. -/
def audioSectionBytes (audioSel : Option (List Nat)) : List Nat :=
  match audioSel with
  | some a => u32B a.length ++ a
  | none => []

/-- `_process_vologram` end to end: the bytes of the output file, or `none`
when the conversion aborts (texture failure, or no keyframe before a frame
that must be reconstituted). -/
def processVologram (enc : TexEncoder) (trim : AudioTrimmer) (opts : ConvertOpts)
    (c : Vologram) : Option (List Nat) :=
  let total := c.hdr.frameCount
  let r := resolvedRange opts total
  let exportCnt := r.2 - r.1 + 1
  let audioSel := selectedAudio trim opts c
  let m := mutatedHdr opts c audioSel exportCnt
  match emitList enc opts c r.1 exportCnt 0 exportCnt with
  | none => none
  | some fs =>
    some (hsegsBytes (writeVolsHeaderSegs opts.noNormals m)
          ++ audioSectionBytes audioSel ++ framesBytes fs)

/-! ### The legacy cutvols tool (src/tools/cutvols/vols_cutter.cpp) -/

/-- One frame as `Sequence::readSequenceFileVOLS` stores it (the `Frame`
struct of vols_cutter.hpp): header fields, sub-array byte runs, and the
trailing frame-data size.  Unread fields keep their zero / empty
initializers. -/
structure CutFrame where
  number : Nat
  sizeMesh : Nat
  keyframe : Nat
  verts : List Nat
  norms : List Nat
  inds : List Nat
  uvs : List Nat
  texs : List Nat
  frameDataSize : Nat
  deriving DecidableEq, Inhabited, Repr

/-- Value of the little-endian number held in a byte list. -/
def leNat : List Nat → Nat
  | [] => 0
  | b :: rest => b % 256 + 256 * leNat rest

/-- Read a 4-byte little-endian integer from the head of a stream. -/
def readU32 (bs : List Nat) : Nat × List Nat := (leNat (bs.take 4), bs.drop 4)

/-- Read one byte from the head of a stream. -/
def readU8 (bs : List Nat) : Nat × List Nat := (leNat (bs.take 1), bs.drop 1)

/-- Read `n` raw bytes from the head of a stream. -/
def readChunk (n : Nat) (bs : List Nat) : List Nat × List Nat := (bs.take n, bs.drop n)

/-- The per-frame loop body of `Sequence::readSequenceFileVOLS`
(src/tools/cutvols/vols_cutter.cpp lines 133-175): frame number, mesh size,
keyframe byte, vertices; normals only when the keyframe byte is exactly 0
or exactly 1; indices, uvs and (when textured) texture only when the
keyframe byte is exactly 1; then the trailing frame-data size.  Returns the
parsed frame and the remaining stream. -/
def readVolsFrame (hasNormals isTextured : Bool) (bs0 : List Nat) : CutFrame × List Nat :=
  let p1 := readU32 bs0
  let p2 := readU32 p1.2
  let p3 := readU8 p2.2
  let p4 := readU32 p3.2
  let pv := readChunk p4.1 p4.2
  let base : CutFrame :=
    { number := p1.1, sizeMesh := p2.1, keyframe := p3.1, verts := pv.1,
      norms := [], inds := [], uvs := [], texs := [], frameDataSize := 0 }
  if p3.1 = 0 then
    if hasNormals = true then
      let pns := readU32 pv.2
      let pn := readChunk pns.1 pns.2
      let pf := readU32 pn.2
      ({ base with norms := pn.1, frameDataSize := pf.1 }, pf.2)
    else
      let pf := readU32 pv.2
      ({ base with frameDataSize := pf.1 }, pf.2)
  else if p3.1 = 1 then
    let afterNorms :=
      if hasNormals = true then
        let pns := readU32 pv.2
        let pn := readChunk pns.1 pns.2
        (pn.1, pn.2)
      else ([], pv.2)
    let pis := readU32 afterNorms.2
    let pi := readChunk pis.1 pis.2
    let pus := readU32 pi.2
    let pu := readChunk pus.1 pus.2
    let afterTex :=
      if isTextured = true then
        let pts := readU32 pu.2
        let pt := readChunk pts.1 pts.2
        (pt.1, pt.2)
      else ([], pu.2)
    let pf := readU32 afterTex.2
    ({ base with norms := afterNorms.1, inds := pi.1, uvs := pu.1,
                 texs := afterTex.1, frameDataSize := pf.1 }, pf.2)
  else
    let pf := readU32 pv.2
    ({ base with frameDataSize := pf.1 }, pf.2)

/-- One output record of `Sequence::writeCutSequencetoVOLS`: the written
frame-header fields and the labelled body runs (the trailing repeated size
is added by `cutRecordBytes`). -/
structure CutRecord where
  number : Nat
  dataSz : Nat
  flag : Nat
  segs : List (Tag × List Nat)
  deriving DecidableEq, Inhabited, Repr

/-- Backward keyframe scan over cut frames (largest index at or below `k`
with a nonzero keyframe byte). -/
def cutFindKeyframeDown (frames : List CutFrame) : Nat → Option Nat
  | 0 => if (frames.getD 0 default).keyframe ≠ 0 then some 0 else none
  | k + 1 =>
    if (frames.getD (k + 1) default).keyframe ≠ 0 then some (k + 1)
    else cutFindKeyframeDown frames k

/-- The replacement-keyframe search of `Sequence::writeCutSequencetoVOLS`
(lines 270-281): scan from `first - 1` down to 0 for a nonzero keyframe
byte; `none` models the fatal `exit(1)` when none exists. -/
def cutReplacementFrame (frames : List CutFrame) (first : Nat) : Option Nat :=
  if first = 0 then none else cutFindKeyframeDown frames (first - 1)

/-- The body runs the cut writer emits (lines 301-312): vertices, normals
when the header has normals, and, for keyframe records, indices then uvs
taken from `kfSrc` (the record's own frame, or the replacement keyframe). -/
def cutBodySegs (hasNormals : Bool) (fr : CutFrame) (kfSrc : Option CutFrame) :
    List (Tag × List Nat) :=
  [(Tag.vertsSz, u32B fr.verts.length), (Tag.verts, fr.verts)]
  ++ (if hasNormals = true then
        [(Tag.normsSz, u32B fr.norms.length), (Tag.norms, fr.norms)] else [])
  ++ (match kfSrc with
      | some s => [(Tag.indsSz, u32B s.inds.length), (Tag.inds, s.inds),
                   (Tag.uvsSz, u32B s.uvs.length), (Tag.uvs, s.uvs)]
      | none => [])

/-- One loop iteration of `Sequence::writeCutSequencetoVOLS` (lines
246-321) for input index `i`: a non-keyframe first frame is turned into a
keyframe (flag 1) sourcing indices and uvs from the replacement keyframe;
any other record keeps its keyframe byte and, when it is nonzero, sources
indices and uvs from itself.  `data_section_sz` counts each written
sub-array plus 4 bytes for its size field. -/
def cutWriteOne (hasNormals : Bool) (frames : List CutFrame) (first i : Nat) :
    Option CutRecord :=
  let fr := frames.getD i default
  let base := fr.verts.length + 4 + (if hasNormals = true then fr.norms.length + 4 else 0)
  if i = first ∧ fr.keyframe = 0 then
    match cutReplacementFrame frames first with
    | none => none
    | some r =>
      let src := frames.getD r default
      some { number := i - first,
             dataSz := base + src.uvs.length + 4 + src.inds.length + 4,
             flag := 1,
             segs := cutBodySegs hasNormals fr (some src) }
  else if fr.keyframe ≠ 0 then
    some { number := i - first,
           dataSz := base + fr.uvs.length + 4 + fr.inds.length + 4,
           flag := fr.keyframe,
           segs := cutBodySegs hasNormals fr (some fr) }
  else
    some { number := i - first, dataSz := base, flag := fr.keyframe,
           segs := cutBodySegs hasNormals fr none }

/-- Emit the cut records for `n` consecutive input indices starting at `i`. -/
def cutWriteList (hasNormals : Bool) (frames : List CutFrame) (first : Nat) :
    Nat → Nat → Option (List CutRecord)
  | _, 0 => some []
  | i, n + 1 =>
    match cutWriteOne hasNormals frames first i with
    | none => none
    | some r =>
      match cutWriteList hasNormals frames first (i + 1) n with
      | none => none
      | some rs => some (r :: rs)

/-- All records `Sequence::writeCutSequencetoVOLS` emits for the inclusive
range `[first, last]`. -/
def cutWriteAll (hasNormals : Bool) (frames : List CutFrame) (first last : Nat) :
    Option (List CutRecord) :=
  cutWriteList hasNormals frames first first (last + 1 - first)

/-- Bytes of one cut record: frame header, body runs, and the repeated
trailing `data_section_sz` (line 313). -/
def cutRecordBytes (r : CutRecord) : List Nat :=
  u32B r.number ++ u32B r.dataSz ++ [r.flag % 256] ++ segsBytes r.segs ++ u32B r.dataSz

/-! ### Spec-modelled v13 serialization and well-formedness -/

/-- Modelled from the spec: the §6 serialization of one frame record of a
single-file container (`vol_geom`, the reader of this format, is not under
src/).  Frame header, vertices, normals when the header has normals,
indices and uvs when the keyframe byte is nonzero, texture when the header
is textured, each sub-array preceded by its 4-byte size, then the repeated
`mesh_data_sz`. -/
def specFrameBytes (hdr : VolHdr) (fd : FrameData) : List Nat :=
  u32B fd.number ++ u32B fd.meshSz ++ [fd.flag % 256]
  ++ u32B fd.vertices.length ++ fd.vertices
  ++ (if hdr.normals = true then u32B fd.normals.length ++ fd.normals else [])
  ++ (if fd.flag ≠ 0 then
        u32B fd.indices.length ++ fd.indices ++ u32B fd.uvs.length ++ fd.uvs else [])
  ++ (if hdr.textured = true then u32B fd.texture.length ++ fd.texture else [])
  ++ u32B fd.meshSz

/-- Modelled from the spec: the concatenated frame records of §6. -/
def specFramesBytes (hdr : VolHdr) : List FrameData → List Nat
  | [] => []
  | fd :: rest => specFrameBytes hdr fd ++ specFramesBytes hdr rest

/-- Modelled from the spec: the §6 single-file v13 header layout (44 bytes
when the format tag is the IFF magic). -/
def specV13HeaderBytes (hdr : VolHdr) : List Nat :=
  volsMagic ++ u32B hdr.version ++ u32B hdr.compression ++ u32B hdr.frameCount
  ++ [boolByte hdr.normals, boolByte hdr.textured]
  ++ [hdr.textureCompression % 256, hdr.textureContainerFormat % 256]
  ++ u32B hdr.textureWidth ++ u32B hdr.textureHeight ++ hdr.fpsBytes
  ++ u32B hdr.audio ++ u32B hdr.audioStart ++ u32B hdr.frameBodyStart

/-- Modelled from the spec: the full §6 single-file v13 byte layout of a
container — header, optional audio section, frame records. -/
def serializeV13 (c : Vologram) : List Nat :=
  specV13HeaderBytes c.hdr
  ++ (match c.audioData with
      | some a => u32B a.length ++ a
      | none => [])
  ++ specFramesBytes c.hdr c.frames

/-- Per-frame well-formedness of a stored frame: frames are numbered by
their index, the keyframe byte is 0, 1 or 2, textured containers carry a
texture on every frame, and the stored `mesh_data_sz` satisfies the §3
sizing invariant. -/
abbrev frameOk (hdr : VolHdr) (i : Nat) (fd : FrameData) : Prop :=
  fd.number = i ∧ fd.flag ≤ 2
  ∧ (hdr.textured = true → 0 < fd.texture.length)
  ∧ fd.meshSz = calculateMeshDataSize false hdr fd (decide (fd.flag ≠ 0)) fd.texture.length

/-- Modelled from the spec: a well-formed single-file v13 container (§3,
§4.2, §6): IFF `VOLS` magic, version 13, a 4-byte fps field, a consistent
frame count of at least one frame, the audio flag matching the presence of
the audio blob, audio offsets matching the serialized layout, a keyframe at
frame 0 (§4.2 declares containers without one invalid), and well-formed
frames. -/
abbrev WellFormedV13 (c : Vologram) : Prop :=
  c.hdr.version = 13
  ∧ c.hdr.formatSz = 4 ∧ c.hdr.formatBytes = volsMagic
  ∧ c.hdr.fpsBytes.length = 4
  ∧ c.hdr.frameCount = c.frames.length
  ∧ 1 ≤ c.frames.length
  ∧ (c.hdr.audio ≠ 0 ↔ c.audioData.isSome = true)
  ∧ (c.audioData.isSome = true →
      c.hdr.audioStart = 44 ∧ c.hdr.frameBodyStart = 48 + (c.audioData.getD []).length)
  ∧ (c.frames.getD 0 default).flag ≠ 0
  ∧ ∀ i, i < c.frames.length → frameOk c.hdr i (c.frames.getD i default)

/-! ### Sub-array accounting over emitted body runs -/

/-- Is a body run the raw bytes of a sub-array? -/
def isDataTag : Tag → Bool
  | Tag.verts | Tag.norms | Tag.inds | Tag.uvs | Tag.tex => true
  | _ => false

/-- Is a body run a 4-byte sub-array size field?  (The trailing repeated
`mesh_data_sz` is not a size field.) -/
def isSizeFieldTag : Tag → Bool
  | Tag.vertsSz | Tag.normsSz | Tag.indsSz | Tag.uvsSz | Tag.texSz => true
  | _ => false

/-- Total bytes of the sub-arrays in a list of body runs. -/
def dataBytesOfSegs (l : List (Tag × List Nat)) : Nat :=
  (l.filter fun s => isDataTag s.1).foldr (fun s acc => s.2.length + acc) 0

/-- Number of sub-array size fields in a list of body runs. -/
def sizeFieldsOfSegs (l : List (Tag × List Nat)) : Nat :=
  (l.filter fun s => isSizeFieldTag s.1).length

/-- Header with the normals flag cleared; used to state that a recomputed
size excludes the normals bytes and their size field. -/
def clearNormals (hdr : VolHdr) : VolHdr := { hdr with normals := false }

/-- Is a body run the normals sub-array or its size field? -/
def isNormalsTag : Tag → Bool
  | Tag.norms | Tag.normsSz => true
  | _ => false

/-! ### Concrete fixtures for witnesses and counterexamples -/

/-- An encoder that is never invoked by the untextured / no-resize fixtures. -/
def encNone : TexEncoder := fun _ _ _ => none

/-- A trimmer that always fails. -/
def trimNone : AudioTrimmer := fun _ _ _ => none

/-- A trimmer that passes its input through unchanged. -/
def passTrim : AudioTrimmer := fun _ _ a => some a

/-- Fill in the stored frame number and the invariant-satisfying stored
`mesh_data_sz` of a fixture frame. -/
def wfFrame (hdr : VolHdr) (i : Nat) (fd : FrameData) : FrameData :=
  { fd with number := i,
            meshSz := calculateMeshDataSize false hdr fd (decide (fd.flag ≠ 0)) fd.texture.length }

/-- A small keyframe: three vertex bytes, two index bytes, two uv bytes. -/
def exKfU : FrameData :=
  { number := 0, meshSz := 0, flag := 1, vertices := [1, 2, 3], normals := [],
    indices := [7, 8], uvs := [5, 6], texture := [] }

/-- A small inter-frame. -/
def exInterU : FrameData :=
  { number := 1, meshSz := 0, flag := 0, vertices := [4, 5, 6], normals := [],
    indices := [], uvs := [], texture := [] }

/-- A plain v13 header: untextured, no normals, no audio. -/
def exHdr13 : VolHdr :=
  { formatSz := 4, formatBytes := volsMagic, version := 13, compression := 0,
    meshName := [], material := [], shader := [], topology := 0,
    frameCount := 1, normals := false, textured := false,
    textureCompression := 0, textureContainerFormat := 0,
    textureWidth := 0, textureHeight := 0, textureFormat := 0,
    fpsBytes := [0, 0, 240, 65], audio := 0, audioStart := 0, frameBodyStart := 0,
    translationBytes := [], rotationBytes := [], scaleBytes := [] }

/-- A v12 header (legacy split-file shape, Unity-style length-prefixed tag). -/
def exHdr12 : VolHdr :=
  { exHdr13 with
    version := 12
    translationBytes := [0, 0, 0, 0, 0, 0, 0, 0, 0, 0, 0, 0]
    rotationBytes := [0, 0, 0, 0, 0, 0, 0, 0, 0, 0, 0, 0, 0, 0, 0, 0]
    scaleBytes := [0, 0, 128, 63] }

/-- A v12 container with a single keyframe. -/
def exC1 : Vologram :=
  { hdr := { exHdr12 with frameCount := 1 }, frames := [exKfU], audioData := none }

/-- A v13 container with one keyframe and two inter-frames. -/
def exC2 : Vologram :=
  { hdr := { exHdr13 with frameCount := 3 },
    frames := [wfFrame exHdr13 0 exKfU, wfFrame exHdr13 1 exInterU,
               wfFrame exHdr13 2 ({ exInterU with vertices := [6, 6, 6] })],
    audioData := none }

/-- Cut range 1..2 of a three-frame container. -/
def exOptsCut : ConvertOpts := { defaultOpts with startFrame := some 1, endFrame := some 2 }

/-- Cut of exactly frame 1. -/
def exOpts1 : ConvertOpts := { defaultOpts with startFrame := some 1, endFrame := some 1 }

/-- A well-formed v13 container with a single keyframe. -/
def exC4w : Vologram :=
  { hdr := { exHdr13 with frameCount := 1 }, frames := [wfFrame exHdr13 0 exKfU],
    audioData := none }

/-- A well-formed v13 container whose last frame is an inter-frame. -/
def exC4x : Vologram :=
  { hdr := { exHdr13 with frameCount := 2 },
    frames := [wfFrame exHdr13 0 exKfU, wfFrame exHdr13 1 exInterU], audioData := none }

/-- A v13 header with a raw (non-BASIS) texture. -/
def exHdrTexRaw : VolHdr :=
  { exHdr13 with
    textured := true
    textureContainerFormat := 0
    textureWidth := 1024
    textureHeight := 1024 }

/-- A resize request to 512 x 512. -/
def exOptsResize : ConvertOpts := { defaultOpts with texW := 512, texH := 512 }

/-- A container with the raw-texture v13 header. -/
def exC5 : Vologram := { hdr := exHdrTexRaw, frames := [], audioData := none }

/-- A v13 header with audio (3 audio bytes, offsets per the §6 layout). -/
def exHdr13A : VolHdr :=
  { exHdr13 with audio := 1, audioStart := 44, frameBodyStart := 51 }

/-- A well-formed v13 container with audio and three keyframes. -/
def exC6 : Vologram :=
  { hdr := { exHdr13A with frameCount := 3 },
    frames := [wfFrame exHdr13A 0 exKfU,
               wfFrame exHdr13A 1 ({ exKfU with vertices := [4, 4, 4] }),
               wfFrame exHdr13A 2 ({ exKfU with vertices := [6, 6, 6] })],
    audioData := some [50, 51, 52] }

/-- A cut starting at frame 1 (audio trim active). -/
def exOptsS1 : ConvertOpts := { defaultOpts with startFrame := some 1 }

/-- Demuxed packets of the fixture audio: a single packet far past the
trim window `[0, 10]`. -/
def exPkts : List (Option Int × List Nat) := [(some 100, [9, 9])]

/-- The trimmer the fixture conversion runs: the in-memory packet loop over
`exPkts` with window `[0, 10]`. -/
def exTrimFail : AudioTrimmer := fun _ _ _ => processAudioDataPackets exPkts 0 10

/-- A v13 header with normals. -/
def exHdr13N : VolHdr := { exHdr13 with normals := true }

/-- A v13 container with normals, one keyframe. -/
def exC8 : Vologram :=
  { hdr := { exHdr13N with frameCount := 1 },
    frames := [wfFrame exHdr13N 0 ({ exKfU with normals := [9, 9, 9] })],
    audioData := none }

/-- Strip-normals options. -/
def exOptsNoNorm : ConvertOpts := { defaultOpts with noNormals := true }

/-- The frames the strip-normals conversion of exC8 emits. -/
def exC8out : List EmittedFrame := (emitAll encNone exOptsNoNorm exC8).getD []

/-- A parsed legacy keyframe record (flag 1). -/
def exCutKf : CutFrame :=
  { number := 0, sizeMesh := 19, keyframe := 1, verts := [1, 2, 3], norms := [],
    inds := [7, 8], uvs := [5, 6], texs := [], frameDataSize := 19 }

/-- A parsed legacy end-keyframe record (flag 2) carrying indices and uvs. -/
def exCutEndKf : CutFrame :=
  { number := 1, sizeMesh := 19, keyframe := 2, verts := [10, 11, 12], norms := [],
    inds := [7, 8], uvs := [5, 6], texs := [], frameDataSize := 19 }

/-- A parsed legacy inter-frame record. -/
def exCutInter : CutFrame :=
  { number := 1, sizeMesh := 7, keyframe := 0, verts := [4, 5, 6], norms := [],
    inds := [], uvs := [], texs := [], frameDataSize := 7 }

/-- The bytes of the flag-2 record as the cut writer itself emits them. -/
def exFlag2Bytes : List Nat :=
  ((cutWriteOne false [exCutKf, exCutEndKf] 0 1).map cutRecordBytes).getD []

/-- A legacy sequence: a keyframe followed by an inter-frame. -/
def exCutFrames : List CutFrame := [exCutKf, exCutInter]

/-- The records of the cut of exCutFrames over the full range 0..1. -/
def exCutRecsFull : List CutRecord := (cutWriteAll false exCutFrames 0 1).getD []

/-- The records of the cut of frame 1 alone (first frame not a keyframe). -/
def exCutRecs1 : List CutRecord := (cutWriteAll false exCutFrames 1 1).getD []

/-- The frames the single-frame cut (frame 1 of exC2) emits. -/
def exC3out : List EmittedFrame := (emitAll encNone exOpts1 exC2).getD []

/-- The frames the fixture v12 conversion emits. -/
def exC1out : List EmittedFrame := (emitAll encNone defaultOpts exC1).getD []

/-- The first emitted frame of the fixture v12 conversion. -/
def exC1f : EmittedFrame := exC1out.getD 0 default

/-- The frames the fixture cut (range 1..2 of exC2) emits. -/
def exC2out : List EmittedFrame := (emitAll encNone exOptsCut exC2).getD []

/-- The frames the full-range conversion of the one-keyframe container emits. -/
def exC9out : List EmittedFrame := (emitAll encNone defaultOpts exC4w).getD []

/-! ### Helper lemmas about the frame loop -/

theorem emitOne_number_flag (enc : TexEncoder) (opts : ConvertOpts) (c : Vologram)
    (start ex j : Nat) (f : EmittedFrame)
    (h : emitOne enc opts c start ex j = some f) :
    f.number = j ∧ f.flag = outFlag j ex (c.frames.getD (start + j) default).flag := by
  simp only [emitOne] at h
  split at h
  · exact absurd h (by simp)
  · split at h
    · exact absurd h (by simp)
    · cases h
      exact ⟨rfl, rfl⟩

theorem emitList_length (enc : TexEncoder) (opts : ConvertOpts) (c : Vologram)
    (start ex : Nat) :
    ∀ n j fs, emitList enc opts c start ex j n = some fs → fs.length = n := by
  intro n
  induction n with
  | zero => intro j fs h; simp only [emitList] at h; cases h; rfl
  | succ n ih =>
    intro j fs h
    simp only [emitList] at h
    split at h
    · exact absurd h (by simp)
    · split at h
      · exact absurd h (by simp)
      · cases h
        simp [ih (j + 1) _ (by assumption)]

theorem emitList_get (enc : TexEncoder) (opts : ConvertOpts) (c : Vologram)
    (start ex : Nat) :
    ∀ n j fs, emitList enc opts c start ex j n = some fs →
      ∀ m, m < n → emitOne enc opts c start ex (j + m) = some (fs.getD m default) := by
  intro n
  induction n with
  | zero => intro j fs _ m hm; exact absurd hm (by omega)
  | succ n ih =>
    intro j fs h m hm
    simp only [emitList] at h
    split at h
    · exact absurd h (by simp)
    · rename_i f hf
      split at h
      · exact absurd h (by simp)
      · rename_i fs' hfs'
        cases h
        match m with
        | 0 => simpa using hf
        | m + 1 =>
          have := ih (j + 1) fs' hfs' m (by omega)
          have harith : j + (m + 1) = j + 1 + m := by omega
          rw [harith]
          simpa using this

theorem emitList_mem (enc : TexEncoder) (opts : ConvertOpts) (c : Vologram)
    (start ex : Nat) :
    ∀ n j fs, emitList enc opts c start ex j n = some fs →
      ∀ f, f ∈ fs → ∃ m, emitOne enc opts c start ex m = some f := by
  intro n
  induction n with
  | zero => intro j fs h f hf; simp only [emitList] at h; cases h; simp at hf
  | succ n ih =>
    intro j fs h f hf
    simp only [emitList] at h
    split at h
    · exact absurd h (by simp)
    · rename_i f0 hf0
      split at h
      · exact absurd h (by simp)
      · rename_i fs' hfs'
        cases h
        rcases List.mem_cons.mp hf with rfl | hmem
        · exact ⟨j, hf0⟩
        · exact ih (j + 1) fs' hfs' f hmem

theorem texCacheFor_some_iff (enc : TexEncoder) (opts : ConvertOpts) (hdr : VolHdr)
    (fd : FrameData) (cache : Option (List Nat))
    (h : texCacheFor enc opts hdr fd = some cache) :
    cache.isSome = true ↔ (11 ≤ hdr.version ∧ hdr.textured = true ∧ 0 < fd.texture.length) := by
  simp only [texCacheFor] at h
  split at h
  · rename_i hcond
    cases hp : processTextureData enc opts.texW opts.texH hdr fd.texture with
    | none => rw [hp] at h; exact absurd h (by simp)
    | some t =>
      rw [hp] at h
      simp only [Option.map_some'] at h
      cases h
      simpa using hcond
  · rename_i hcond
    cases h
    simpa using hcond

theorem calc_eq_segSums (nn : Bool) (hdr : VolHdr) (fd : FrameData) (isKf : Bool)
    (cache : Option (List Nat)) (hv : 12 ≤ hdr.version)
    (hc : cache.isSome = true ↔ (11 ≤ hdr.version ∧ hdr.textured = true ∧ 0 < fd.texture.length)) :
    calculateMeshDataSize nn hdr fd isKf ((cache.getD []).length)
      = (dataBytesOfSegs (writeFrameBodySegs nn hdr fd isKf cache)
         + 4 * sizeFieldsOfSegs (writeFrameBodySegs nn hdr fd isKf cache)) % pow32
    ∧ texSizeForTrailing hdr fd cache = (cache.getD []).length := by
  have hv11 : 11 ≤ hdr.version := by omega
  cases cache with
  | some cb =>
    have hcond : 11 ≤ hdr.version ∧ hdr.textured = true ∧ 0 < fd.texture.length := by
      simpa using hc
    refine ⟨?_, by simp [texSizeForTrailing]⟩
    by_cases hnn : nn = false <;> by_cases hnorm : hdr.normals = true <;>
      by_cases hk : isKf = true <;>
      (simp [calculateMeshDataSize, writeFrameBodySegs, dataBytesOfSegs, sizeFieldsOfSegs,
        isDataTag, isSizeFieldTag, List.filter_append, List.foldr_append,
        hnn, hnorm, hk, hv, hv11, hcond, hcond.2.1, hcond.2.2]) <;>
      (try congr 1) <;> omega
  | none =>
    have hcond : ¬ (11 ≤ hdr.version ∧ hdr.textured = true ∧ 0 < fd.texture.length) := by
      simpa using hc
    have htex : ¬ (hdr.textured = true ∧ 0 < fd.texture.length) := by
      intro hx; exact hcond ⟨hv11, hx⟩
    refine ⟨?_, by simp [texSizeForTrailing, hcond]⟩
    by_cases hnn : nn = false <;> by_cases hnorm : hdr.normals = true <;>
      by_cases hk : isKf = true <;>
      (simp [calculateMeshDataSize, writeFrameBodySegs, dataBytesOfSegs, sizeFieldsOfSegs,
        isDataTag, isSizeFieldTag, List.filter_append, List.foldr_append,
        hnn, hnorm, hk, hv, hv11, hcond, htex]) <;>
      (try congr 1) <;> omega

theorem writeFrameBodySegs_getLast (nn : Bool) (hdr : VolHdr) (fd : FrameData)
    (isKf : Bool) (cache : Option (List Nat)) :
    (writeFrameBodySegs nn hdr fd isKf cache).getLast?
      = some (Tag.trailSz,
              u32B (calculateMeshDataSize nn hdr fd isKf (texSizeForTrailing hdr fd cache))) := by
  unfold writeFrameBodySegs
  exact List.getLast?_concat _

/-- C1: for every frame emitted by CONVERT on a version >= 12 container, the
`mesh_data_sz` written in the frame header and the trailing `mesh_data_sz`
written after the frame body are equal, and both equal the sum of the bytes
of the sub-arrays actually emitted plus 4 bytes for each size field actually
emitted. -/
theorem meshSize_invariant_v12 (enc : TexEncoder) (opts : ConvertOpts) (c : Vologram)
    (fs : List EmittedFrame) (f : EmittedFrame)
    (hv : 12 ≤ c.hdr.version)
    (hfs : emitAll enc opts c = some fs) (hf : f ∈ fs)
    (hbound : dataBytesOfSegs f.segs + 4 * sizeFieldsOfSegs f.segs < pow32) :
    f.meshSz = dataBytesOfSegs f.segs + 4 * sizeFieldsOfSegs f.segs
    ∧ f.segs.getLast? = some (Tag.trailSz, u32B f.meshSz) := by
  simp only [emitAll] at hfs
  obtain ⟨m, hone⟩ := emitList_mem enc opts c _ _ _ _ _ hfs f hf
  simp only [emitOne] at hone
  split at hone
  · exact absurd hone (by simp)
  · rename_i cache hcache
    have hiff := texCacheFor_some_iff _ _ _ _ _ hcache
    split at hone
    · exact absurd hone (by simp)
    · rename_i fi hfi
      have htex : fi.1.texture = (c.frames.getD ((resolvedRange opts c.hdr.frameCount).1 + m) default).texture := by
        split at hfi
        · split at hfi
          · exact absurd hfi (by simp)
          · cases hfi; rfl
        · cases hfi; rfl
      cases hone
      have hiff2 : cache.isSome = true
          ↔ (11 ≤ c.hdr.version ∧ c.hdr.textured = true ∧ 0 < fi.1.texture.length) := by
        rw [htex]; exact hiff
      obtain ⟨he, ht⟩ := calc_eq_segSums opts.noNormals c.hdr fi.1 fi.2 cache hv hiff2
      refine ⟨?_, ?_⟩
      · show calculateMeshDataSize opts.noNormals c.hdr fi.1 fi.2 ((cache.getD []).length)
          = dataBytesOfSegs _ + 4 * sizeFieldsOfSegs _
        rw [he]
        exact Nat.mod_eq_of_lt hbound
      · show (writeFrameBodySegs opts.noNormals c.hdr fi.1 fi.2 cache).getLast? = _
        rw [writeFrameBodySegs_getLast, ht]

/-- Witness for C1 at a concrete v12 single-keyframe container. -/
theorem meshSize_invariant_v12_check :
    exC1f.meshSz = dataBytesOfSegs exC1f.segs + 4 * sizeFieldsOfSegs exC1f.segs
    ∧ exC1f.segs.getLast? = some (Tag.trailSz, u32B exC1f.meshSz) :=
  meshSize_invariant_v12 encNone defaultOpts exC1 exC1out exC1f (by decide) (by decide)
    (by decide) (by decide)

theorem resolvedRange_bounds (opts : ConvertOpts) (total s e : Nat) (h : 1 ≤ total)
    (hr : resolvedRange opts total = (s, e)) : s ≤ e ∧ e < total := by
  unfold resolvedRange at hr
  injection hr with h1 h2
  subst h1
  subst h2
  constructor <;> (split_ifs <;> omega)

theorem inds_mem_keyframe_segs (nn : Bool) (hdr : VolHdr) (fd : FrameData)
    (cache : Option (List Nat)) :
    ∃ p ∈ writeFrameBodySegs nn hdr fd true cache, p.1 = Tag.inds := by
  refine ⟨(Tag.inds, fd.indices), ?_, rfl⟩
  simp [writeFrameBodySegs]

/-- C2: for every cut with export count at least 1, output frame 0 is
emitted with keyframe flag 1 or 2; for export count at least 2, a
non-keyframe input frame at the end of the range is emitted with flag 2;
and when the first and last output frames are the same non-keyframe input
frame, exactly one frame is emitted, reconstituted (its body carries an
indices sub-array) and flagged 1. -/
theorem cut_endpoint_keyframes (enc : TexEncoder) (opts : ConvertOpts) (c : Vologram)
    (fs : List EmittedFrame) (s e ex : Nat)
    (hcnt : c.hdr.frameCount = c.frames.length)
    (htot : 1 ≤ c.frames.length)
    (hflags : ∀ i, i < c.frames.length → (c.frames.getD i default).flag ≤ 2)
    (hr : resolvedRange opts c.hdr.frameCount = (s, e))
    (hex : ex = e - s + 1)
    (hfs : emitAll enc opts c = some fs) :
    ((fs.getD 0 default).flag = 1 ∨ (fs.getD 0 default).flag = 2)
    ∧ (2 ≤ ex → (c.frames.getD e default).flag = 0 → (fs.getD (ex - 1) default).flag = 2)
    ∧ (ex = 1 → (c.frames.getD s default).flag = 0 →
        fs.length = 1 ∧ (fs.getD 0 default).flag = 1
        ∧ ∃ p ∈ (fs.getD 0 default).segs, p.1 = Tag.inds) := by
  obtain ⟨hse, het⟩ := resolvedRange_bounds opts c.hdr.frameCount s e (by omega) hr
  have hslt : s < c.frames.length := by omega
  simp only [emitAll, hr] at hfs
  subst hex
  have hexpos : 1 ≤ e - s + 1 := by omega
  have hlen := emitList_length enc opts c s (e - s + 1) (e - s + 1) 0 fs hfs
  have hone0 : emitOne enc opts c s (e - s + 1) 0 = some (fs.getD 0 default) := by
    simpa using emitList_get enc opts c s (e - s + 1) (e - s + 1) 0 fs hfs 0 (by omega)
  obtain ⟨-, hflag0⟩ := emitOne_number_flag enc opts c s (e - s + 1) 0 _ hone0
  refine ⟨?_, ?_, ?_⟩
  · rw [hflag0]
    unfold outFlag
    have hsf := hflags s hslt
    by_cases h0 : (c.frames.getD (s + 0) default).flag = 0
    · rw [if_pos ⟨rfl, h0⟩]
      simp
    · rw [if_neg (fun hx => h0 hx.2), if_neg (fun hx => h0 hx.2)]
      simp only [Nat.add_zero] at h0 ⊢
      omega
  · intro h2ex hflagE
    have honeL : emitOne enc opts c s (e - s + 1) ((e - s + 1) - 1)
        = some (fs.getD ((e - s + 1) - 1) default) := by
      simpa using emitList_get enc opts c s (e - s + 1) (e - s + 1) 0 fs hfs
        ((e - s + 1) - 1) (by omega)
    obtain ⟨-, hflagL⟩ := emitOne_number_flag enc opts c s (e - s + 1) _ _ honeL
    rw [hflagL]
    unfold outFlag
    have harith : s + ((e - s + 1) - 1) = e := by omega
    rw [harith, if_neg (by intro hx; omega), if_pos ⟨rfl, hflagE⟩]
  · intro hex1 hflagS
    have hflagS0 : (c.frames.getD (s + 0) default).flag = 0 := by
      simpa using hflagS
    refine ⟨by omega, ?_, ?_⟩
    · rw [hflag0]
      unfold outFlag
      rw [if_pos ⟨rfl, hflagS0⟩]
    · simp only [emitOne] at hone0
      split at hone0
      · exact absurd hone0 (by simp)
      · rename_i cache hcache
        split at hone0
        · exact absurd hone0 (by simp)
        · rename_i fi hfi
          split at hfi
          · split at hfi
            · exact absurd hfi (by simp)
            · rename_i k hk
              injection hfi with hfi2
              subst hfi2
              injection hone0 with h
              rw [← h]
              exact inds_mem_keyframe_segs opts.noNormals c.hdr _ cache
          · rename_i hcond
            exact absurd ⟨Or.inl trivial, hflagS0⟩ hcond

/-- Witness for C2 at the cut of range 1..2 of a container whose frames
are one keyframe followed by two inter-frames. -/
theorem cut_endpoint_keyframes_check :
    ((exC2out.getD 0 default).flag = 1 ∨ (exC2out.getD 0 default).flag = 2)
    ∧ (2 ≤ 2 → (exC2.frames.getD 2 default).flag = 0 → (exC2out.getD 1 default).flag = 2)
    ∧ (2 = 1 → (exC2.frames.getD 1 default).flag = 0 →
        exC2out.length = 1 ∧ (exC2out.getD 0 default).flag = 1
        ∧ ∃ p ∈ (exC2out.getD 0 default).segs, p.1 = Tag.inds) :=
  cut_endpoint_keyframes encNone exOptsCut exC2 exC2out 1 2 2 (by decide) (by decide)
    (by decide) (by decide) (by decide) (by decide)

theorem cutWriteOne_number (hn : Bool) (frames : List CutFrame) (first i : Nat)
    (r : CutRecord) (h : cutWriteOne hn frames first i = some r) : r.number = i - first := by
  by_cases h1 : i = first ∧ (frames.getD i default).keyframe = 0
  · obtain ⟨rfl, hkf⟩ := h1
    simp only [cutWriteOne] at h
    rw [if_pos ⟨trivial, hkf⟩] at h
    rcases hrep : cutReplacementFrame frames i with _ | rv <;> rw [hrep] at h
    · simp at h
    · injection h with h2
      rw [← h2]
  · simp only [cutWriteOne] at h
    rw [if_neg h1] at h
    by_cases h2 : (frames.getD i default).keyframe ≠ 0
    · rw [if_pos h2] at h
      injection h with h2x
      rw [← h2x]
    · rw [if_neg h2] at h
      injection h with h2x
      rw [← h2x]

theorem cutWriteList_length (hn : Bool) (frames : List CutFrame) (first : Nat) :
    ∀ n i recs, cutWriteList hn frames first i n = some recs → recs.length = n := by
  intro n
  induction n with
  | zero => intro i recs h; simp only [cutWriteList] at h; cases h; rfl
  | succ n ih =>
    intro i recs h
    simp only [cutWriteList] at h
    split at h
    · exact absurd h (by simp)
    · split at h
      · exact absurd h (by simp)
      · cases h
        simp [ih (i + 1) _ (by assumption)]

theorem cutWriteList_number (hn : Bool) (frames : List CutFrame) (first : Nat) :
    ∀ n i recs, cutWriteList hn frames first i n = some recs →
      ∀ m, m < n → (recs.getD m default).number = (i + m) - first := by
  intro n
  induction n with
  | zero => intro i recs _ m hm; exact absurd hm (by omega)
  | succ n ih =>
    intro i recs h m hm
    simp only [cutWriteList] at h
    split at h
    · exact absurd h (by simp)
    · rename_i r hr
      split at h
      · exact absurd h (by simp)
      · rename_i rs hrs
        cases h
        match m with
        | 0 => simpa using cutWriteOne_number hn frames first i r hr
        | m + 1 =>
          have := ih (i + 1) rs hrs m (by omega)
          have harith : i + (m + 1) = i + 1 + m := by omega
          rw [harith]
          simpa using this

/-- C9 amended: every frame emitted by CONVERT or by CUT carries
`frame_number` equal to its 0-based position in the emitted range; it
differs from the input frame index exactly when the resolved start frame is
positive (for a full-range run the two coincide). -/
theorem frame_renumbering (enc : TexEncoder) (opts : ConvertOpts) (c : Vologram)
    (fs : List EmittedFrame) (j : Nat)
    (hfs : emitAll enc opts c = some fs) (hj : j < fs.length) :
    (fs.getD j default).number = j
    ∧ (∀ (hn : Bool) (frames2 : List CutFrame) (first last : Nat)
        (recs : List CutRecord) (m : Nat),
        cutWriteAll hn frames2 first last = some recs → m < recs.length →
        (recs.getD m default).number = m)
    ∧ (0 < (resolvedRange opts c.hdr.frameCount).1 →
        (fs.getD j default).number ≠ (resolvedRange opts c.hdr.frameCount).1 + j) := by
  simp only [emitAll] at hfs
  have hlen := emitList_length enc opts c _ _ _ _ _ hfs
  have honej : emitOne enc opts c (resolvedRange opts c.hdr.frameCount).1
      ((resolvedRange opts c.hdr.frameCount).2 - (resolvedRange opts c.hdr.frameCount).1 + 1) j
      = some (fs.getD j default) := by
    simpa using emitList_get enc opts c _ _ _ _ _ hfs j (by omega)
  obtain ⟨hnum, -⟩ := emitOne_number_flag enc opts c _ _ _ _ honej
  refine ⟨hnum, ?_, ?_⟩
  · intro hn frames2 first last recs m hrecs hm
    unfold cutWriteAll at hrecs
    have hlen2 := cutWriteList_length hn frames2 first _ _ _ hrecs
    have hnum2 := cutWriteList_number hn frames2 first _ _ _ hrecs m (by omega)
    omega
  · intro hpos
    rw [hnum]
    omega

/-- Witness for C9 at the fixture cut. -/
theorem frame_renumbering_check :
    (exC2out.getD 0 default).number = 0
    ∧ (∀ (hn : Bool) (frames2 : List CutFrame) (first last : Nat)
        (recs : List CutRecord) (m : Nat),
        cutWriteAll hn frames2 first last = some recs → m < recs.length →
        (recs.getD m default).number = m)
    ∧ (0 < (resolvedRange exOptsCut exC2.hdr.frameCount).1 →
        (exC2out.getD 0 default).number ≠ (resolvedRange exOptsCut exC2.hdr.frameCount).1 + 0) :=
  frame_renumbering encNone exOptsCut exC2 exC2out 0 (by decide) (by decide)

/-- C9 counterexample: on a full-range conversion the emitted frame 0
carries a frame_number equal to its input frame index (both are 0), so the
output number is not always different from the input index. -/
theorem frame_renumbering_cex :
    emitAll encNone defaultOpts exC4w = some exC9out
    ∧ (exC9out.getD 0 default).number
        = (resolvedRange defaultOpts exC4w.hdr.frameCount).1 + 0 := by
  constructor
  · decide
  · decide

/-- C5 amended: when a resize to dimensions different from the current ones
is requested on a textured container whose texture is not a v13
BASIS-container texture, `_process_texture_data` emits a warning and passes
the payload through byte-for-byte (reporting the original dimensions), but
the output header's `texture_width` and `texture_height` are nonetheless
set to the requested target dimensions. -/
theorem nonbasis_resize_passthrough (enc : TexEncoder) (opts : ConvertOpts) (c : Vologram)
    (audioSel : Option (List Nat)) (ex : Nat) (tex : List Nat)
    (htw : 0 < opts.texW) (hth : 0 < opts.texH)
    (hdiff : opts.texW ≠ c.hdr.textureWidth ∨ opts.texH ≠ c.hdr.textureHeight)
    (hnb : ¬ (13 ≤ c.hdr.version ∧ c.hdr.textureContainerFormat = 1))
    (htextured : c.hdr.textured = true) :
    processTextureData enc opts.texW opts.texH c.hdr tex
      = some { warned := true, bytes := tex,
               width := c.hdr.textureWidth, height := c.hdr.textureHeight }
    ∧ (mutatedHdr opts c audioSel ex).textureWidth = opts.texW
    ∧ (mutatedHdr opts c audioSel ex).textureHeight = opts.texH := by
  have hresize : needsResize opts.texW opts.texH c.hdr = true := by
    unfold needsResize
    simp only [Bool.and_eq_true, Bool.or_eq_true, decide_eq_true_eq]
    exact ⟨⟨htw, hth⟩, hdiff⟩
  refine ⟨?_, ?_, ?_⟩
  · unfold processTextureData
    rw [if_neg (by simp [hresize]), if_neg hnb]
  · simp only [mutatedHdr]
    split <;>
      (show (texMutated opts _).textureWidth = opts.texW
       unfold texMutated
       rw [if_pos ⟨htw, hth, htextured⟩])
  · simp only [mutatedHdr]
    split <;>
      (show (texMutated opts _).textureHeight = opts.texH
       unfold texMutated
       rw [if_pos ⟨htw, hth, htextured⟩])

/-- Witness for C5 at the raw-texture fixture. -/
theorem nonbasis_resize_passthrough_check :
    processTextureData encNone exOptsResize.texW exOptsResize.texH exC5.hdr [9]
      = some { warned := true, bytes := [9],
               width := exC5.hdr.textureWidth, height := exC5.hdr.textureHeight }
    ∧ (mutatedHdr exOptsResize exC5 none 1).textureWidth = exOptsResize.texW
    ∧ (mutatedHdr exOptsResize exC5 none 1).textureHeight = exOptsResize.texH :=
  nonbasis_resize_passthrough encNone exOptsResize exC5 none 1 [9] (by decide) (by decide)
    (by decide) (by decide) (by decide)

/-- C5 counterexample: on a textured v13 container with a raw (non-BASIS)
texture and a requested 512 x 512 resize, the payload passes through with a
warning, but the output header's texture_width is set to 512 — it is not
left at the original 1024, contradicting the claim that the resize is not
applied to the header. -/
theorem nonbasis_resize_header_changed :
    processTextureData encNone 512 512 exHdrTexRaw [1, 2, 3]
      = some { warned := true, bytes := [1, 2, 3], width := 1024, height := 1024 }
    ∧ (mutatedHdr exOptsResize exC5 none 5).textureWidth = 512
    ∧ exC5.hdr.textureWidth = 1024 := by
  refine ⟨by decide, by decide, by decide⟩

theorem collectWindow_nil (sTs eTs : Int) :
    ∀ pkts : List (Option Int × List Nat),
      (∀ pb ∈ pkts, ∀ t : Int, pb.1 = some t → t < sTs ∨ eTs < t) →
      collectWindowPackets sTs eTs pkts = [] := by
  intro pkts
  induction pkts with
  | nil => intro _; rfl
  | cons pb rest ih =>
    intro hno
    obtain ⟨opt, bytes⟩ := pb
    cases opt with
    | none =>
      simp only [collectWindowPackets]
      exact ih fun q hq => hno q (List.mem_cons_of_mem _ hq)
    | some t =>
      have ht := hno (some t, bytes) (List.mem_cons_self _ _) t rfl
      simp only [collectWindowPackets]
      rw [if_neg (by intro hx; rcases ht with h | h <;> omega)]
      split
      · rfl
      · exact ih fun q hq => hno q (List.mem_cons_of_mem _ hq)

/-- C6 amended: when an audio trim is active and no demuxed packet falls
inside the window, the in-memory trimmer produces no output and reports
failure, and the conversion then proceeds with the original untrimmed audio
(same output as with a pass-through trimmer) instead of failing. -/
theorem audio_trim_empty_fallback (enc : TexEncoder) (opts : ConvertOpts) (c : Vologram)
    (pkts : List (Option Int × List Nat)) (sTs eTs : Int)
    (hno : ∀ pb ∈ pkts, ∀ t : Int, pb.1 = some t → t < sTs ∨ eTs < t)
    (haudio : c.hdr.audio ≠ 0) (hsome : c.audioData.isSome = true) :
    processAudioDataPackets pkts sTs eTs = none
    ∧ selectedAudio (fun _ _ _ => processAudioDataPackets pkts sTs eTs) opts c
        = some (c.audioData.getD [])
    ∧ processVologram enc (fun _ _ _ => processAudioDataPackets pkts sTs eTs) opts c
        = processVologram enc passTrim opts c := by
  have hcoll := collectWindow_nil sTs eTs pkts hno
  have hfail : processAudioDataPackets pkts sTs eTs = none := by
    unfold processAudioDataPackets
    rw [hcoll]
    rfl
  have hsel : selectedAudio (fun _ _ _ => processAudioDataPackets pkts sTs eTs) opts c
      = some (c.audioData.getD []) := by
    unfold selectedAudio
    rw [if_pos ⟨haudio, hsome⟩]
    split
    · rw [hfail]
    · rfl
  have hsel2 : selectedAudio passTrim opts c = some (c.audioData.getD []) := by
    unfold selectedAudio passTrim
    rw [if_pos ⟨haudio, hsome⟩]
    split
    · rfl
    · rfl
  refine ⟨hfail, hsel, ?_⟩
  unfold processVologram
  rw [hsel, hsel2]

/-- Witness for C6 at the fixture container with audio, a cut starting at
frame 1, and a single packet far past the window. -/
theorem audio_trim_empty_fallback_check :
    processAudioDataPackets exPkts 0 10 = none
    ∧ selectedAudio (fun _ _ _ => processAudioDataPackets exPkts 0 10) exOptsS1 exC6
        = some (exC6.audioData.getD [])
    ∧ processVologram encNone (fun _ _ _ => processAudioDataPackets exPkts 0 10) exOptsS1 exC6
        = processVologram encNone passTrim exOptsS1 exC6 :=
  audio_trim_empty_fallback encNone exOptsS1 exC6 exPkts 0 10
    (by
      intro pb hpb t ht
      rcases List.mem_singleton.mp hpb with rfl
      injection ht with h2
      subst h2
      right
      norm_num)
    (by decide) (by decide)

/-- C6 counterexample: with an active audio trim whose packet window is
empty, the conversion does not fail — it succeeds, and the audio it selects
for the output is the original untrimmed audio. -/
theorem audio_trim_empty_fallback_cex :
    trimActive 1 2 3 = true
    ∧ processAudioDataPackets exPkts 0 10 = none
    ∧ selectedAudio exTrimFail exOptsS1 exC6 = some [50, 51, 52]
    ∧ (processVologram encNone exTrimFail exOptsS1 exC6).isSome = true := by
  refine ⟨by decide, by decide, by decide, by decide⟩

theorem texMutated_fields (opts : ConvertOpts) (m1 : VolHdr) :
    (texMutated opts m1).version = m1.version
    ∧ (texMutated opts m1).formatSz = m1.formatSz
    ∧ (texMutated opts m1).formatBytes = m1.formatBytes
    ∧ (texMutated opts m1).fpsBytes = m1.fpsBytes := by
  unfold texMutated
  split <;> exact ⟨rfl, rfl, rfl, rfl⟩

theorem v13_header_length (nn : Bool) (m : VolHdr) (hv : 13 ≤ m.version)
    (hf4 : m.formatSz = 4) (hfB : m.formatBytes = volsMagic)
    (hfps : m.fpsBytes.length = 4) :
    (hsegsBytes (writeVolsHeaderSegs nn m)).length = 44 := by
  have h1 : ¬ (m.version < 13) := by omega
  have h2 : 11 ≤ m.version := by omega
  have h4 : ¬ (12 ≤ m.version ∧ m.version < 13) := by omega
  simp [writeVolsHeaderSegs, hsegsBytes, h1, h2, hv, h4, hf4, hfB, lpString,
    u32B, u16B, volsMagic, hfps]

/-- C7: for a v13 conversion of a container with audio, the output header
has `audio_start` equal to the serialized v13 header size (44 bytes, and
the header the conversion writes is indeed 44 bytes long), and
`frame_body_start` equal to `audio_start` plus 4 plus the size of the audio
bytes actually emitted. -/
theorem v13_audio_offsets (trim : AudioTrimmer) (opts : ConvertOpts)
    (c : Vologram) (ex : Nat) (a : List Nat)
    (hv : 13 ≤ c.hdr.version) (hf4 : c.hdr.formatSz = 4)
    (hfB : c.hdr.formatBytes = volsMagic) (hfps : c.hdr.fpsBytes.length = 4)
    (haudio : c.hdr.audio ≠ 0) (hsome : c.audioData.isSome = true)
    (hsel : selectedAudio trim opts c = some a) :
    (mutatedHdr opts c (selectedAudio trim opts c) ex).audioStart = 44
    ∧ (hsegsBytes (writeVolsHeaderSegs opts.noNormals
        (mutatedHdr opts c (selectedAudio trim opts c) ex))).length = 44
    ∧ (mutatedHdr opts c (selectedAudio trim opts c) ex).frameBodyStart
        = (mutatedHdr opts c (selectedAudio trim opts c) ex).audioStart + 4 + a.length := by
  have hm2 := texMutated_fields opts { c.hdr with frameCount := ex }
  have hcondM : 13 ≤ (texMutated opts { c.hdr with frameCount := ex }).version
      ∧ c.hdr.audio ≠ 0 ∧ c.audioData.isSome = true := by
    refine ⟨?_, haudio, hsome⟩
    rw [hm2.1]
    exact hv
  simp only [mutatedHdr]
  rw [if_pos hcondM]
  refine ⟨rfl, ?_, ?_⟩
  · refine v13_header_length opts.noNormals _ ?_ ?_ ?_ ?_
    · show 13 ≤ (texMutated opts { c.hdr with frameCount := ex }).version
      rw [hm2.1]
      exact hv
    · show (texMutated opts { c.hdr with frameCount := ex }).formatSz = 4
      rw [hm2.2.1]
      exact hf4
    · show (texMutated opts { c.hdr with frameCount := ex }).formatBytes = volsMagic
      rw [hm2.2.2.1]
      exact hfB
    · show (texMutated opts { c.hdr with frameCount := ex }).fpsBytes.length = 4
      rw [hm2.2.2.2]
      exact hfps
  · show 44 + 4 + ((selectedAudio trim opts c).getD []).length = 44 + 4 + a.length
    rw [hsel]
    rfl

/-- Witness for C7 at the fixture audio container with no trim. -/
theorem v13_audio_offsets_check :
    (mutatedHdr defaultOpts exC6 (selectedAudio trimNone defaultOpts exC6) 3).audioStart = 44
    ∧ (hsegsBytes (writeVolsHeaderSegs defaultOpts.noNormals
        (mutatedHdr defaultOpts exC6 (selectedAudio trimNone defaultOpts exC6) 3))).length = 44
    ∧ (mutatedHdr defaultOpts exC6 (selectedAudio trimNone defaultOpts exC6) 3).frameBodyStart
        = (mutatedHdr defaultOpts exC6 (selectedAudio trimNone defaultOpts exC6) 3).audioStart
          + 4 + [50, 51, 52].length :=
  v13_audio_offsets trimNone defaultOpts exC6 3 [50, 51, 52] (by decide) (by decide)
    (by decide) (by decide) (by decide) (by decide) (by decide)

theorem emitOne_segs (enc : TexEncoder) (opts : ConvertOpts) (c : Vologram)
    (start ex j : Nat) (f : EmittedFrame)
    (h : emitOne enc opts c start ex j = some f) :
    ∃ fd2 isKf cache, f.segs = writeFrameBodySegs opts.noNormals c.hdr fd2 isKf cache
      ∧ f.meshSz = calculateMeshDataSize opts.noNormals c.hdr fd2 isKf ((cache.getD []).length) := by
  simp only [emitOne] at h
  split at h
  · exact absurd h (by simp)
  · rename_i cache hcache
    split at h
    · exact absurd h (by simp)
    · rename_i fi hfi
      cases h
      exact ⟨fi.1, fi.2, cache, rfl, rfl⟩

theorem norms_tags_absent_all (hdr : VolHdr) (fd : FrameData) (isKf : Bool)
    (cache : Option (List Nat)) :
    ((writeFrameBodySegs true hdr fd isKf cache).all fun s => ! isNormalsTag s.1) = true := by
  unfold writeFrameBodySegs
  rw [if_neg (by simp)]
  rcases cache with _ | cb <;>
    by_cases hk : isKf = true <;>
      by_cases ht : 11 ≤ hdr.version ∧ hdr.textured = true ∧ 0 < fd.texture.length <;>
        simp [hk, ht, isNormalsTag]

/-- C8: with strip-normals enabled, the header writer emits a normals flag
byte of 0, no emitted frame body run is a normals sub-array or its size
field, and the recomputed `mesh_data_sz` equals the size computed for a
container without normals (the normals bytes and their size field are
excluded). -/
theorem strip_normals_removes_normals (enc : TexEncoder) (opts : ConvertOpts) (c : Vologram)
    (fs : List EmittedFrame) (m : VolHdr) (fd2 : FrameData) (isKf2 : Bool) (t2 : Nat)
    (f : EmittedFrame) (p : Tag × List Nat)
    (hnn : opts.noNormals = true)
    (hv : 11 ≤ m.version)
    (hfs : emitAll enc opts c = some fs)
    (hf : f ∈ fs) (hp : p ∈ f.segs) :
    (HTag.normalsFlag, [0]) ∈ writeVolsHeaderSegs true m
    ∧ (p.1 ≠ Tag.norms ∧ p.1 ≠ Tag.normsSz)
    ∧ calculateMeshDataSize true c.hdr fd2 isKf2 t2
        = calculateMeshDataSize false (clearNormals c.hdr) fd2 isKf2 t2 := by
  refine ⟨?_, ?_, ?_⟩
  · unfold writeVolsHeaderSegs
    rw [if_pos hv]
    simp
  · simp only [emitAll] at hfs
    obtain ⟨j, hone⟩ := emitList_mem enc opts c _ _ _ _ _ hfs f hf
    obtain ⟨fd3, isKf3, cache3, hsegs, -⟩ := emitOne_segs enc opts c _ _ _ _ hone
    rw [hsegs, hnn] at hp
    have hall := norms_tags_absent_all c.hdr fd3 isKf3 cache3
    have h1 : (! isNormalsTag p.1) = true := List.all_eq_true.mp hall p hp
    have h2 : isNormalsTag p.1 = false := by simpa using h1
    constructor <;> intro he <;> rw [he] at h2 <;> simp [isNormalsTag] at h2
  · unfold calculateMeshDataSize clearNormals
    simp

/-- Witness for C8 at the fixture normals container under strip-normals. -/
theorem strip_normals_removes_normals_check :
    (HTag.normalsFlag, [0]) ∈ writeVolsHeaderSegs true exHdr13N
    ∧ (((exC8out.getD 0 default).segs.getD 0 default).1 ≠ Tag.norms
       ∧ ((exC8out.getD 0 default).segs.getD 0 default).1 ≠ Tag.normsSz)
    ∧ calculateMeshDataSize true exC8.hdr exKfU true 0
        = calculateMeshDataSize false (clearNormals exC8.hdr) exKfU true 0 :=
  strip_normals_removes_normals encNone exOptsNoNorm exC8 exC8out exHdr13N exKfU true 0
    (exC8out.getD 0 default) ((exC8out.getD 0 default).segs.getD 0 default)
    (by decide) (by decide) (by decide) (by decide) (by decide)

/-- C10: the cut writer emits an end-keyframe (flag 2) record that does
carry indices and uvs sub-arrays, but the legacy sequence reader
(`readSequenceFileVOLS`) parses a flag-2 record like neither a keyframe nor
an inter-frame: it reads only the vertices and then misreads the indices
size field (value 2) as the trailing frame-data size (which is 19 in the
record), leaving indices and uvs unread — contradicting the claim that
flag-2 frames are parsed exactly like flag-1 frames. -/
theorem reader_skips_end_keyframe_arrays :
    cutWriteOne false [exCutKf, exCutEndKf] 0 1
      = some { number := 1, dataSz := 19, flag := 2,
               segs := [(Tag.vertsSz, u32B 3), (Tag.verts, [10, 11, 12]),
                        (Tag.indsSz, u32B 2), (Tag.inds, [7, 8]),
                        (Tag.uvsSz, u32B 2), (Tag.uvs, [5, 6])] }
    ∧ (readVolsFrame false false exFlag2Bytes).1.keyframe = 2
    ∧ (readVolsFrame false false exFlag2Bytes).1.inds = []
    ∧ (readVolsFrame false false exFlag2Bytes).1.uvs = []
    ∧ (readVolsFrame false false exFlag2Bytes).1.sizeMesh = 19
    ∧ (readVolsFrame false false exFlag2Bytes).1.frameDataSize = 2 := by
  refine ⟨by decide, by decide, by decide, by decide, by decide, by decide⟩

theorem texSizeForTrailing_eq (hdr : VolHdr) (fd : FrameData) (cache : Option (List Nat))
    (hc : cache.isSome = true ↔ (11 ≤ hdr.version ∧ hdr.textured = true ∧ 0 < fd.texture.length)) :
    texSizeForTrailing hdr fd cache = (cache.getD []).length := by
  cases cache with
  | some cb => rfl
  | none =>
    unfold texSizeForTrailing
    rw [if_neg (by simpa using hc)]
    rfl

theorem cutWriteList_get (hn : Bool) (frames : List CutFrame) (first : Nat) :
    ∀ n i recs, cutWriteList hn frames first i n = some recs →
      ∀ m, m < n → cutWriteOne hn frames first (i + m) = some (recs.getD m default) := by
  intro n
  induction n with
  | zero => intro i recs _ m hm; exact absurd hm (by omega)
  | succ n ih =>
    intro i recs h m hm
    simp only [cutWriteList] at h
    split at h
    · exact absurd h (by simp)
    · rename_i r hr
      split at h
      · exact absurd h (by simp)
      · rename_i rs hrs
        cases h
        match m with
        | 0 => simpa using hr
        | m + 1 =>
          have := ih (i + 1) rs hrs m (by omega)
          have harith : i + (m + 1) = i + 1 + m := by omega
          rw [harith]
          simpa using this

/-- C3 amended: in CONVERT, a non-keyframe first or last frame of the range
is emitted as a spliced keyframe body — vertices (and normals when kept) of
that frame, indices and uvs of the nearest preceding keyframe found by
scanning backwards, that frame's own processed texture, in the canonical
order — flagged 1 for the first frame and 2 for the last; in CUT only the
first frame is spliced this way (flagged 1, indices then uvs sourced from
the replacement keyframe); a non-keyframe final frame of a CUT is written
unchanged as an inter-frame. -/
theorem reconstitution_splice (enc : TexEncoder) (opts : ConvertOpts) (c : Vologram)
    (fs : List EmittedFrame) (s e ex j k : Nat) (ocache : Option (List Nat))
    (hn : Bool) (frames2 : List CutFrame) (first last r2 : Nat) (recs : List CutRecord)
    (hr : resolvedRange opts c.hdr.frameCount = (s, e)) (hex : ex = e - s + 1)
    (hfs : emitAll enc opts c = some fs)
    (hj : j < ex) (hend : j = 0 ∨ j = ex - 1)
    (hflag : (c.frames.getD (s + j) default).flag = 0)
    (hk : findKeyframeDown c.frames (s + j) = some k)
    (hcache : texCacheFor enc opts c.hdr (c.frames.getD (s + j) default) = some ocache)
    (hcw : cutWriteAll hn frames2 first last = some recs)
    (hckf : (frames2.getD first default).keyframe = 0)
    (hcrep : cutReplacementFrame frames2 first = some r2)
    (hfl : first ≤ last) :
    (fs.getD j default).segs
      = [(Tag.vertsSz, u32B (c.frames.getD (s + j) default).vertices.length),
         (Tag.verts, (c.frames.getD (s + j) default).vertices)]
        ++ (if opts.noNormals = false ∧ 11 ≤ c.hdr.version ∧ c.hdr.normals = true then
              [(Tag.normsSz, u32B (c.frames.getD (s + j) default).normals.length),
               (Tag.norms, (c.frames.getD (s + j) default).normals)] else [])
        ++ [(Tag.indsSz, u32B (c.frames.getD k default).indices.length),
            (Tag.inds, (c.frames.getD k default).indices),
            (Tag.uvsSz, u32B (c.frames.getD k default).uvs.length),
            (Tag.uvs, (c.frames.getD k default).uvs)]
        ++ (ocache.elim [] fun cb => [(Tag.texSz, u32B cb.length), (Tag.tex, cb)])
        ++ [(Tag.trailSz, u32B (fs.getD j default).meshSz)]
    ∧ (fs.getD j default).flag = (if j = 0 then 1 else 2)
    ∧ (recs.getD 0 default).flag = 1
    ∧ (recs.getD 0 default).segs
      = [(Tag.vertsSz, u32B (frames2.getD first default).verts.length),
         (Tag.verts, (frames2.getD first default).verts)]
        ++ (if hn = true then
              [(Tag.normsSz, u32B (frames2.getD first default).norms.length),
               (Tag.norms, (frames2.getD first default).norms)] else [])
        ++ [(Tag.indsSz, u32B (frames2.getD r2 default).inds.length),
            (Tag.inds, (frames2.getD r2 default).inds),
            (Tag.uvsSz, u32B (frames2.getD r2 default).uvs.length),
            (Tag.uvs, (frames2.getD r2 default).uvs)] := by
  simp only [emitAll, hr] at hfs
  subst hex
  have honej : emitOne enc opts c s (e - s + 1) j = some (fs.getD j default) := by
    simpa using emitList_get enc opts c s (e - s + 1) (e - s + 1) 0 fs hfs j (by omega)
  have hiff := texCacheFor_some_iff enc opts c.hdr _ _ hcache
  simp only [emitOne] at honej
  rw [hcache] at honej
  rw [if_pos ⟨hend, hflag⟩] at honej
  rw [hk] at honej
  injection honej with hrec
  refine ⟨?_, ?_, ?_, ?_⟩
  · rw [← hrec]
    show writeFrameBodySegs opts.noNormals c.hdr
        (splicedFrameData (c.frames.getD (s + j) default) (c.frames.getD k default)) true ocache
      = _
    rcases hoc : ocache with _ | cb
    · subst hoc
      have hcond : ¬ (11 ≤ c.hdr.version ∧ c.hdr.textured = true
          ∧ 0 < (c.frames.getD (s + j) default).texture.length) := by simpa using hiff
      have hcondS : ¬ (11 ≤ c.hdr.version ∧ c.hdr.textured = true
          ∧ 0 < (splicedFrameData (c.frames.getD (s + j) default)
                  (c.frames.getD k default)).texture.length) := hcond
      unfold writeFrameBodySegs
      rw [if_neg hcondS]
      have ht0 : texSizeForTrailing c.hdr
          (splicedFrameData (c.frames.getD (s + j) default) (c.frames.getD k default)) none
          = 0 := by
        show (if 11 ≤ c.hdr.version ∧ c.hdr.textured = true
            ∧ 0 < (c.frames.getD (s + j) default).texture.length
          then (c.frames.getD (s + j) default).texture.length else 0) = 0
        rw [if_neg hcond]
      rw [ht0]
      rfl
    · subst hoc
      have hcond : 11 ≤ c.hdr.version ∧ c.hdr.textured = true
          ∧ 0 < (c.frames.getD (s + j) default).texture.length := by simpa using hiff
      have hcondS : 11 ≤ c.hdr.version ∧ c.hdr.textured = true
          ∧ 0 < (splicedFrameData (c.frames.getD (s + j) default)
                  (c.frames.getD k default)).texture.length := hcond
      unfold writeFrameBodySegs
      rw [if_pos hcondS]
      rfl
  · rw [← hrec]
    show outFlag j (e - s + 1) (c.frames.getD (s + j) default).flag = _
    unfold outFlag
    by_cases hj0 : j = 0
    · rw [if_pos ⟨hj0, hflag⟩, if_pos hj0]
    · have hjL : j = (e - s + 1) - 1 := by
        rcases hend with h | h
        · exact absurd h hj0
        · exact h
      rw [if_neg (fun hx => hj0 hx.1), if_pos ⟨hjL, hflag⟩, if_neg hj0]
  · unfold cutWriteAll at hcw
    have hone0 : cutWriteOne hn frames2 first first = some (recs.getD 0 default) := by
      simpa using cutWriteList_get hn frames2 first (last + 1 - first) first recs hcw 0
        (by omega)
    simp only [cutWriteOne] at hone0
    rw [if_pos ⟨trivial, hckf⟩] at hone0
    rw [hcrep] at hone0
    injection hone0 with hrec2
    rw [← hrec2]
  · unfold cutWriteAll at hcw
    have hone0 : cutWriteOne hn frames2 first first = some (recs.getD 0 default) := by
      simpa using cutWriteList_get hn frames2 first (last + 1 - first) first recs hcw 0
        (by omega)
    simp only [cutWriteOne] at hone0
    rw [if_pos ⟨trivial, hckf⟩] at hone0
    rw [hcrep] at hone0
    injection hone0 with hrec2
    rw [← hrec2]
    unfold cutBodySegs
    rfl

/-- Witness for C3: the single-frame cut of an inter-frame in CONVERT, and
the cut of an inter first frame in CUT, both spliced from the keyframe at
index 0. -/
theorem reconstitution_splice_check :
    (exC3out.getD 0 default).segs
      = [(Tag.vertsSz, u32B (exC2.frames.getD 1 default).vertices.length),
         (Tag.verts, (exC2.frames.getD 1 default).vertices)]
        ++ (if exOpts1.noNormals = false ∧ 11 ≤ exC2.hdr.version ∧ exC2.hdr.normals = true then
              [(Tag.normsSz, u32B (exC2.frames.getD 1 default).normals.length),
               (Tag.norms, (exC2.frames.getD 1 default).normals)] else [])
        ++ [(Tag.indsSz, u32B (exC2.frames.getD 0 default).indices.length),
            (Tag.inds, (exC2.frames.getD 0 default).indices),
            (Tag.uvsSz, u32B (exC2.frames.getD 0 default).uvs.length),
            (Tag.uvs, (exC2.frames.getD 0 default).uvs)]
        ++ ((none : Option (List Nat)).elim []
              fun cb => [(Tag.texSz, u32B cb.length), (Tag.tex, cb)])
        ++ [(Tag.trailSz, u32B (exC3out.getD 0 default).meshSz)]
    ∧ (exC3out.getD 0 default).flag = (if (0 : Nat) = 0 then 1 else 2)
    ∧ (exCutRecs1.getD 0 default).flag = 1
    ∧ (exCutRecs1.getD 0 default).segs
      = [(Tag.vertsSz, u32B (exCutFrames.getD 1 default).verts.length),
         (Tag.verts, (exCutFrames.getD 1 default).verts)]
        ++ (if (false : Bool) = true then
              [(Tag.normsSz, u32B (exCutFrames.getD 1 default).norms.length),
               (Tag.norms, (exCutFrames.getD 1 default).norms)] else [])
        ++ [(Tag.indsSz, u32B (exCutFrames.getD 0 default).inds.length),
            (Tag.inds, (exCutFrames.getD 0 default).inds),
            (Tag.uvsSz, u32B (exCutFrames.getD 0 default).uvs.length),
            (Tag.uvs, (exCutFrames.getD 0 default).uvs)] :=
  reconstitution_splice encNone exOpts1 exC2 exC3out 1 1 1 0 0 none false exCutFrames 1 1 0
    exCutRecs1 (by decide) (by decide) (by decide) (by decide) (Or.inl rfl) (by decide)
    (by decide) (by decide) (by decide) (by decide) (by decide) (by decide)

/-- C3 counterexample: in CUT, a non-keyframe final frame of the exported
range is NOT emitted as a spliced keyframe body — cutting frames 0..1 of a
keyframe-then-inter sequence leaves the last record an inter-frame (flag 0)
whose body carries only the vertices, with no indices or uvs from the
preceding keyframe. -/
theorem cut_last_frame_not_spliced :
    (exCutFrames.getD 1 default).keyframe = 0
    ∧ cutWriteAll false exCutFrames 0 1
        = some [{ number := 0, dataSz := 19, flag := 1,
                  segs := [(Tag.vertsSz, u32B 3), (Tag.verts, [1, 2, 3]),
                           (Tag.indsSz, u32B 2), (Tag.inds, [7, 8]),
                           (Tag.uvsSz, u32B 2), (Tag.uvs, [5, 6])] },
                { number := 1, dataSz := 7, flag := 0,
                  segs := [(Tag.vertsSz, u32B 3), (Tag.verts, [4, 5, 6])] }] := by
  refine ⟨by decide, by decide⟩

theorem calc_untextured (nn : Bool) (hdr : VolHdr) (fd : FrameData) (kf : Bool)
    (t1 t2 : Nat) (ht : hdr.textured = false) :
    calculateMeshDataSize nn hdr fd kf t1 = calculateMeshDataSize nn hdr fd kf t2 := by
  unfold calculateMeshDataSize
  simp [ht]

theorem v13_header_bytes (m : VolHdr) (hv : m.version = 13) (hf4 : m.formatSz = 4)
    (hfB : m.formatBytes = volsMagic) :
    hsegsBytes (writeVolsHeaderSegs false m) = specV13HeaderBytes m := by
  unfold writeVolsHeaderSegs specV13HeaderBytes hsegsBytes
  rw [if_pos ⟨hf4, hfB⟩, if_neg (show ¬ (m.version < 13) by omega),
    if_pos (show 11 ≤ m.version by omega), if_pos (show 13 ≤ m.version by omega),
    if_neg (show ¬ (12 ≤ m.version ∧ m.version < 13) by omega)]
  simp

theorem emitOne_identity (enc : TexEncoder) (c : Vologram) (j : Nat)
    (hv13 : c.hdr.version = 13)
    (hok : frameOk c.hdr j (c.frames.getD j default))
    (hnr : (j = 0 ∨ j = c.hdr.frameCount - 1) → (c.frames.getD j default).flag ≠ 0) :
    ∃ f, emitOne enc defaultOpts c 0 c.hdr.frameCount j = some f
      ∧ emittedFrameBytes f = specFrameBytes c.hdr (c.frames.getD j default) := by
  obtain ⟨hnum, hflag2, htexnz, hmesh⟩ := hok
  set fd := c.frames.getD j default with hfd
  have h11 : 11 ≤ c.hdr.version := by omega
  have hreconF : ¬ ((j = 0 ∨ j = c.hdr.frameCount - 1) ∧ fd.flag = 0) :=
    fun hx => hnr hx.1 hx.2
  have houtflag : outFlag j c.hdr.frameCount fd.flag = fd.flag := by
    unfold outFlag
    rw [if_neg (fun hx => hnr (Or.inl hx.1) hx.2), if_neg (fun hx => hnr (Or.inr hx.1) hx.2)]
  cases htex : c.hdr.textured with
  | false =>
    have hcache : texCacheFor enc defaultOpts c.hdr fd = some none := by
      unfold texCacheFor
      rw [if_neg (by simp [htex])]
    refine ⟨{ number := j, flag := fd.flag, meshSz := fd.meshSz,
              segs := writeFrameBodySegs false c.hdr fd (decide (fd.flag ≠ 0)) none },
            ?_, ?_⟩
    · simp only [emitOne, Nat.zero_add]
      rw [← hfd, hcache]
      dsimp only
      rw [if_neg hreconF]
      dsimp only
      simp only [Option.some.injEq, EmittedFrame.mk.injEq]
      refine ⟨trivial, houtflag, ?_, rfl⟩
      rw [hmesh]
      exact calc_untextured false c.hdr _ _ _ _ htex
    · unfold emittedFrameBytes writeFrameHeaderBytes specFrameBytes segsBytes
        writeFrameBodySegs
      rw [hnum, hmesh]
      have hcz : calculateMeshDataSize false c.hdr fd (decide (fd.flag ≠ 0))
          (texSizeForTrailing c.hdr fd none)
          = calculateMeshDataSize false c.hdr fd (decide (fd.flag ≠ 0))
              fd.texture.length :=
        calc_untextured false c.hdr _ _ _ _ htex
      rw [hcz]
      by_cases hnn : c.hdr.normals = true <;>
        by_cases hf0 : fd.flag = 0 <;>
          simp [htex, hnn, hf0, h11, List.append_assoc]
  | true =>
    have hlen : 0 < fd.texture.length := htexnz htex
    have hcache : texCacheFor enc defaultOpts c.hdr fd = some (some fd.texture) := by
      unfold texCacheFor
      rw [if_pos ⟨h11, htex, hlen⟩]
      unfold processTextureData
      rw [if_pos (by rfl)]
      rfl
    refine ⟨{ number := j, flag := fd.flag, meshSz := fd.meshSz,
              segs := writeFrameBodySegs false c.hdr fd (decide (fd.flag ≠ 0))
                        (some fd.texture) }, ?_, ?_⟩
    · simp only [emitOne, Nat.zero_add]
      rw [← hfd, hcache]
      dsimp only
      rw [if_neg hreconF]
      dsimp only
      simp only [Option.some.injEq, EmittedFrame.mk.injEq]
      refine ⟨trivial, houtflag, ?_, rfl⟩
      rw [hmesh]
      rfl
    · unfold emittedFrameBytes writeFrameHeaderBytes specFrameBytes segsBytes
        writeFrameBodySegs
      rw [hnum, hmesh]
      by_cases hnn : c.hdr.normals = true <;>
        by_cases hf0 : fd.flag = 0 <;>
          simp [htex, hnn, hf0, h11, hlen, texSizeForTrailing, List.append_assoc]

theorem emitList_identity (enc : TexEncoder) (c : Vologram)
    (hv13 : c.hdr.version = 13)
    (hcnt : c.hdr.frameCount = c.frames.length)
    (hfirst : (c.frames.getD 0 default).flag ≠ 0)
    (hlast : (c.frames.getD (c.frames.length - 1) default).flag ≠ 0)
    (hfr : ∀ i, i < c.frames.length → frameOk c.hdr i (c.frames.getD i default)) :
    ∀ n j, j + n = c.frames.length →
      ∃ fs, emitList enc defaultOpts c 0 c.hdr.frameCount j n = some fs
        ∧ framesBytes fs = specFramesBytes c.hdr (c.frames.drop j) := by
  intro n
  induction n with
  | zero =>
    intro j hj
    refine ⟨[], rfl, ?_⟩
    rw [List.drop_eq_nil_of_le (by omega)]
    rfl
  | succ m ih =>
    intro j hj
    have hjlt : j < c.frames.length := by omega
    have hnr : (j = 0 ∨ j = c.hdr.frameCount - 1) → (c.frames.getD j default).flag ≠ 0 := by
      intro hx
      cases hx with
      | inl h0 => rw [h0]; exact hfirst
      | inr hL => rw [hL, hcnt]; exact hlast
    obtain ⟨f, hf, hfb⟩ := emitOne_identity enc c j hv13 (hfr j hjlt) hnr
    obtain ⟨fs, hfs, hfsb⟩ := ih (j + 1) (by omega)
    refine ⟨f :: fs, ?_, ?_⟩
    · simp only [emitList]
      rw [hf, hfs]
    · have hcons : framesBytes (f :: fs) = emittedFrameBytes f ++ framesBytes fs := rfl
      rw [hcons, hfb, hfsb, List.drop_eq_getElem_cons hjlt,
        List.getD_eq_getElem c.frames default hjlt]
      rfl

/-- C4 (corrected): running CONVERT with no modifications on a well-formed
single-file v13 container whose last frame is a keyframe reproduces the
input byte-for-byte.  (The claim's full range v in {10,11,12,13} is false:
for v < 13 `_write_vols_header` rewrites the magic into IFF form and
inserts the format-size prefix, and for any version a non-keyframe last
frame is reconstituted as an end-keyframe, changing the bytes — see the
counterexample.) -/
theorem convert_identity_v13 (enc : TexEncoder) (trim : AudioTrimmer) (c : Vologram)
    (hwf : WellFormedV13 c)
    (hlast : (c.frames.getD (c.frames.length - 1) default).flag ≠ 0) :
    processVologram enc trim defaultOpts c = some (serializeV13 c) := by
  obtain ⟨hv13, hf4, hfB, hfps, hcnt, hlen1, haiff, haoff, hkf0, hfr⟩ := hwf
  have htot : 1 ≤ c.hdr.frameCount := by omega
  have hrr : resolvedRange defaultOpts c.hdr.frameCount = (0, c.hdr.frameCount - 1) := by
    simp only [resolvedRange, defaultOpts, Option.getD_none]
    rw [if_neg (show ¬ c.hdr.frameCount ≤ 0 by omega)]
    have he : (if c.hdr.frameCount ≤ c.hdr.frameCount - 1 then c.hdr.frameCount - 1
        else c.hdr.frameCount - 1) = c.hdr.frameCount - 1 := by
      split <;> rfl
    rw [he, if_neg (show ¬ (c.hdr.frameCount - 1 < 0) by omega)]
  have htrim : trimActive 0 (c.hdr.frameCount - 1) c.hdr.frameCount = false := by
    unfold trimActive
    simp
  have hsel : selectedAudio trim defaultOpts c = c.audioData := by
    simp only [selectedAudio]
    rw [hrr]
    cases ha : c.audioData with
    | none => rw [if_neg (by simp [ha])]
    | some a =>
      rw [if_pos ⟨haiff.mpr (by rw [ha]; rfl), rfl⟩]
      rw [if_neg (by simp [htrim])]
      rfl
  have htm : texMutated defaultOpts ({ c.hdr with frameCount := c.hdr.frameCount }) = c.hdr := by
    unfold texMutated
    rw [if_neg (by simp [defaultOpts])]
  have hm : mutatedHdr defaultOpts c c.audioData c.hdr.frameCount = c.hdr := by
    simp only [mutatedHdr]
    rw [htm]
    cases ha : c.audioData with
    | none => rw [if_neg (by simp)]
    | some a =>
      rw [if_pos ⟨by omega, haiff.mpr (by rw [ha]; rfl), rfl⟩]
      obtain ⟨ha44, habs⟩ := haoff (by rw [ha]; rfl)
      rw [ha] at habs
      have h48 : (44 : Nat) + 4 = 48 := rfl
      rw [h48, ← habs, ← ha44]
  obtain ⟨fs, hfs, hfsb⟩ := emitList_identity enc c hv13 hcnt hkf0 hlast hfr
    c.frames.length 0 (by omega)
  rw [← hcnt] at hfs
  simp only [processVologram]
  rw [hrr]
  dsimp only
  simp only [Nat.sub_zero]
  rw [show c.hdr.frameCount - 1 + 1 = c.hdr.frameCount from by omega]
  rw [hsel, hm, hfs]
  dsimp only
  have hh : hsegsBytes (writeVolsHeaderSegs defaultOpts.noNormals c.hdr)
      = specV13HeaderBytes c.hdr := v13_header_bytes c.hdr hv13 hf4 hfB
  rw [hh, hfsb, List.drop_zero]
  unfold serializeV13
  cases c.audioData <;> rfl

/-- C4 witness: the identity theorem applied to a concrete well-formed v13
container whose single frame is a keyframe. -/
theorem convert_identity_v13_check :
    WellFormedV13 exC4w
    ∧ (exC4w.frames.getD (exC4w.frames.length - 1) default).flag ≠ 0
    ∧ processVologram encNone trimNone defaultOpts exC4w = some (serializeV13 exC4w) :=
  ⟨by decide, by decide, convert_identity_v13 encNone trimNone exC4w (by decide) (by decide)⟩

/-- C4 counterexample: a well-formed v13 container whose last frame is an
inter-frame is not reproduced byte-for-byte — the frame loop reconstitutes
the last frame as an end-keyframe (flag 2 with spliced indices and uvs),
so the claim fails already for v13, and a fortiori over v in {10,...,13}. -/
theorem convert_identity_fails_inter_last :
    WellFormedV13 exC4x
    ∧ processVologram encNone trimNone defaultOpts exC4x ≠ some (serializeV13 exC4x) :=
  ⟨by decide, by decide⟩

end VolTools
